import Mathlib

/-!
# Drain eligibility and the MCM node group

Verification development for the cluster-autoscaler fork:

* `Drain`: the drain eligibility engine exercised by
  `cluster-autoscaler/utils/drain/drain_test.go`.  The engine itself
  (`GetPodsForDeletionOnNodeDrain` of drain.go) is modelled from the written
  specification (sections 3, 4.1, 4.2, 4.3); the pods, the budgets and the
  rows of `TestDrain` are transcribed from the test file, and the model
  answers every row as the test expects (`Drain.drainTests_hold`).
* `Mcm`: `cluster-autoscaler/cloudprovider/mcm/mcm_cloud_provider.go`.
* `Validation`: the vendored
  `machine-controller-manager/pkg/apis/machine/validation/awsmachineclass.go`.
-/

set_option autoImplicit false

deriving instance DecidableEq for Except

namespace Drain

/-! ## Data model (specification section 3, fields as used in drain_test.go) -/

/-- Modelled from the spec: the safe-to-evict annotation of a pod, a
tri-state (absent / true / false).  The annotation key `PodSafeToEvictKey`
is declared in the missing drain.go. -/
inductive SafeToEvict where
  | absent
  | explicitTrue
  | explicitFalse
  deriving DecidableEq, Repr

/-- Lifecycle phase of a pod (running / succeeded / failed / other). -/
inductive PodPhase where
  | running
  | succeeded
  | failed
  | other
  deriving DecidableEq, Repr

/-- Restart policy of a pod; `unset` is the Go zero value. -/
inductive RestartPolicy where
  | unset
  | always
  | onFailure
  | never
  deriving DecidableEq, Repr

/-- Modelled from the spec: the closed variant of workload-controller kinds
(section 9), replacing the kind string of an owner reference. -/
inductive ControllerKind where
  | replicationController
  | replicaSet
  | job
  | daemonSet
  | statefulSet
  | unknown
  deriving DecidableEq, Repr

/-- Owner reference of a pod: the declared kind and the controller name. -/
structure OwnerReference where
  Kind : ControllerKind
  Name : String
  deriving DecidableEq, Repr

/-- Source of a volume; only empty-directory (local) storage is told apart. -/
inductive VolumeSource where
  | emptyDir (medium : String)
  | other
  deriving DecidableEq, Repr

/-- Volume of a pod. -/
structure Volume where
  Name : String
  Source : VolumeSource
  deriving DecidableEq, Repr

/-- Pod record: the attributes the engine reads. Times are in seconds. -/
structure Pod where
  Name : String
  Namespace : String
  Labels : List (String × String)
  OwnerReferences : List OwnerReference
  SafeToEvict : SafeToEvict
  DeletionTimestamp : Option Int
  NodeName : String
  RestartPolicy : RestartPolicy
  Volumes : List Volume
  Phase : PodPhase
  deriving DecidableEq, Repr

/-- Label selector of a disruption budget (`MatchLabels` only, as in the test). -/
structure LabelSelector where
  MatchLabels : List (String × String)
  deriving DecidableEq, Repr

/-- Disruption budget: a namespace and an optional label selector. -/
structure PodDisruptionBudget where
  Namespace : String
  Selector : Option LabelSelector
  deriving DecidableEq, Repr

/-- Modelled from the spec: the policy flags of `Evaluate` (section 6). -/
structure PolicyFlags where
  allowLocalStorageEviction : Bool
  allowUnreplicatedEviction : Bool
  terminationGracePeriodSeconds : Int
  deriving DecidableEq, Repr

/-- Modelled from the spec: answer of the controller-existence lookup channel
(found, not found, or a transport failure). -/
inductive LookupResult where
  | found
  | notFound
  | failed
  deriving DecidableEq, Repr

/-- Modelled from the spec: the capability "does controller (kind, namespace,
name) exist?" supplied by the cluster API client. -/
abbrev Lookup := ControllerKind → String → String → LookupResult

/-- Modelled from the spec: the named reasons of a `PolicyBlocked` error
(section 7). -/
inductive Reason where
  | unsafeAnnotated
  | nakedPod
  | controllerNotFound
  | localStorage
  | disruptionBudgetUnmatched
  deriving DecidableEq, Repr

/-- Modelled from the spec: why a pod blocks, either a policy reason or a
failed controller lookup (rule 8, "or an error propagates"). -/
inductive BlockCause where
  | policy (reason : Reason)
  | lookupFailure
  deriving DecidableEq, Repr

/-- Modelled from the spec: the classification result of one pod. -/
inductive Classification where
  | evictable
  | skip
  | blocking (cause : BlockCause)
  deriving DecidableEq, Repr

/-- Modelled from the spec: the error of a drain decision; it carries the
identity (namespace, name) of the offending pod. -/
inductive DrainError where
  | policyBlocked (podNamespace podName : String) (reason : Reason)
  | lookupFailed (podNamespace podName : String)
  deriving DecidableEq, Repr

/-! ## Controller resolver (specification section 4.1) -/

/-- Modelled from the spec: what the resolver reports as the controller kind. -/
inductive ResolvedKind where
  | noController
  | ofKind (k : ControllerKind)
  deriving DecidableEq, Repr

/-- Modelled from the spec: the triple `(ControllerKind, exists, err)`. -/
structure Resolution where
  kind : ResolvedKind
  controllerExists : Bool
  err : Bool
  deriving DecidableEq, Repr

/-- Modelled from the spec: the kind of the owning controller, read from the
first owner reference; `noController` when the list is empty. -/
def controllerKind (p : Pod) : ResolvedKind :=
  match p.OwnerReferences with
  | [] => .noController
  | ref :: _ => .ofKind ref.Kind

/-- Modelled from the spec: `Resolve(pod)` of the Controller Resolver.  With
no owner reference it answers `noController`; otherwise it makes one point
lookup by the pod's namespace and the referenced name. -/
def Resolve (lookup : Lookup) (p : Pod) : Resolution :=
  match p.OwnerReferences with
  | [] => { kind := .noController, controllerExists := false, err := false }
  | ref :: _ =>
    match lookup ref.Kind p.Namespace ref.Name with
    | .found => { kind := .ofKind ref.Kind, controllerExists := true, err := false }
    | .notFound => { kind := .ofKind ref.Kind, controllerExists := false, err := false }
    | .failed => { kind := .ofKind ref.Kind, controllerExists := false, err := true }

/-! ## Disruption budget index (specification section 4.2) -/

/-- Modelled from the spec: does every pair of `MatchLabels` occur among the
pod's labels. -/
def matchLabels (sel : List (String × String)) (labels : List (String × String)) : Bool :=
  sel.all fun kv => labels.lookup kv.1 == some kv.2

/-- Modelled from the spec: test of a budget's label selector against a pod's
labels.  A budget without selector selects nothing. -/
def selects (b : PodDisruptionBudget) (p : Pod) : Bool :=
  match b.Selector with
  | none => false
  | some sel => matchLabels sel.MatchLabels p.Labels

/-- Modelled from the spec: the build step, budgets grouped by namespace. -/
def budgetIndex (budgets : List PodDisruptionBudget) (ns : String) : List PodDisruptionBudget :=
  budgets.filter fun b => b.Namespace == ns

/-- Modelled from the spec: `CoveredBy(pod, budgets) -> (covered, satisfiable)`. -/
def CoveredBy (p : Pod) (budgets : List PodDisruptionBudget) : Bool × Bool :=
  match budgetIndex budgets p.Namespace with
  | [] => (false, true)
  | b :: bs => if (b :: bs).any (fun x => selects x p) then (true, true) else (false, false)

/-! ## Drain eligibility engine (specification section 4.3) -/

/-- Modelled from the spec: rule 4, the pod carries a deletion-requested
timestamp older than the grace period. -/
def terminating (flags : PolicyFlags) (now : Int) (p : Pod) : Bool :=
  match p.DeletionTimestamp with
  | none => false
  | some t => decide (t + flags.terminationGracePeriodSeconds < now)

/-- Modelled from the spec: rule 5, the lifecycle phase is succeeded or failed. -/
def terminal (p : Pod) : Bool :=
  p.Phase == .succeeded || p.Phase == .failed

/-- Modelled from the spec: rule 6, the pod declares a local volume. -/
def HasLocalStorage (p : Pod) : Bool :=
  p.Volumes.any fun v =>
    match v.Source with
    | .emptyDir _ => true
    | .other => false

/-- The namespace of the system pods. -/
def systemNamespace : String := "kube-system"

/-- Modelled from the spec: rule 9 and the default rule 10 (section 4.2), in
the policy of the call of the test.  The rows of `TestDrain` on
`kubeSystemRcPod` (drain_test.go, lines 491-522) fix one case beyond section
4.2: a pod of the namespace kube-system blocks unless a budget of its
namespace selects it, also when no budget has that namespace. -/
def budgetRule (budgets : List PodDisruptionBudget) (p : Pod) : Classification :=
  if (CoveredBy p budgets).2 then
    if p.Namespace = systemNamespace && !(CoveredBy p budgets).1 then
      .blocking (.policy .disruptionBudgetUnmatched)
    else .evictable
  else .blocking (.policy .disruptionBudgetUnmatched)

/-- Modelled from the spec: rules 7 and 8, then rule 9.  A naked pod blocks
unless the policy allows unreplicated eviction; a referenced controller must
be confirmed by the resolver. -/
def ownerRule (flags : PolicyFlags) (lookup : Lookup)
    (budgets : List PodDisruptionBudget) (p : Pod) : Classification :=
  let r := Resolve lookup p
  match r.kind with
  | .noController =>
    if flags.allowUnreplicatedEviction then budgetRule budgets p
    else .blocking (.policy .nakedPod)
  | .ofKind _ =>
    if r.err then .blocking .lookupFailure
    else if r.controllerExists then budgetRule budgets p
    else .blocking (.policy .controllerNotFound)

/-- Modelled from the spec: the per-pod rule evaluation of the engine, rules
1 to 10 in their precedence, first match wins. -/
def classify (flags : PolicyFlags) (now : Int) (lookup : Lookup)
    (budgets : List PodDisruptionBudget) (p : Pod) : Classification :=
  if p.SafeToEvict = .explicitFalse then .blocking (.policy .unsafeAnnotated)
  else if p.SafeToEvict = .explicitTrue then .evictable
  else if controllerKind p = .ofKind .daemonSet then .skip
  else if terminating flags now p then .skip
  else if terminal p then .evictable
  else if HasLocalStorage p && !flags.allowLocalStorageEviction then
    .blocking (.policy .localStorage)
  else ownerRule flags lookup budgets p

/-- Modelled from the spec: the error reported for a blocking pod. -/
def toError (p : Pod) : BlockCause → DrainError
  | .policy reason => .policyBlocked p.Namespace p.Name reason
  | .lookupFailure => .lookupFailed p.Namespace p.Name

/-- Modelled from the spec: the first blocking pod of a classified list. -/
def firstBlocking : List (Pod × Classification) → Option (Pod × BlockCause)
  | [] => none
  | (p, .blocking cause) :: _ => some (p, cause)
  | (_, .evictable) :: rest => firstBlocking rest
  | (_, .skip) :: rest => firstBlocking rest

/-- Modelled from the spec: the evictable pods of a classified list, in order. -/
def collectEvictable : List (Pod × Classification) → List Pod
  | [] => []
  | (p, .evictable) :: rest => p :: collectEvictable rest
  | (_, .skip) :: rest => collectEvictable rest
  | (_, .blocking _) :: rest => collectEvictable rest

/-- Modelled from the spec: `Evaluate(pods, budgets, policyFlags, now)`, the
missing `GetPodsForDeletionOnNodeDrain`.  Every pod is classified; if any pod
blocks, the result is no pods and the error of the first blocking pod,
otherwise the evictable pods and no error. -/
def Evaluate (flags : PolicyFlags) (now : Int) (lookup : Lookup)
    (budgets : List PodDisruptionBudget) (pods : List Pod) :
    List Pod × Option DrainError :=
  let classified := pods.map fun p => (p, classify flags now lookup budgets p)
  match firstBlocking classified with
  | some (p, cause) => ([], some (toError p cause))
  | none => (collectEvictable classified, none)

/-! ## Objects of `TestDrain` (drain_test.go) -/

/-- Pod with the zero value in every field but name and namespace. -/
def basePod (name ns : String) : Pod :=
  { Name := name, Namespace := ns, Labels := [], OwnerReferences := [],
    SafeToEvict := .absent, DeletionTimestamp := none, NodeName := "",
    RestartPolicy := .unset, Volumes := [], Phase := .other }

/-- Pod `rcPod` of the test: managed by the replication controller "rc". -/
def rcPod : Pod :=
  { basePod "bar" "default" with
    OwnerReferences := [{ Kind := .replicationController, Name := "rc" }],
    NodeName := "node" }

/-- Pod `kubeSystemRcPod` of the test. -/
def kubeSystemRcPod : Pod :=
  { basePod "bar" "kube-system" with
    OwnerReferences := [{ Kind := .replicationController, Name := "rc" }],
    Labels := [("k8s-app", "bar")],
    NodeName := "node" }

/-- Pod `dsPod` of the test: managed by the daemonset "ds". -/
def dsPod : Pod :=
  { basePod "bar" "default" with
    OwnerReferences := [{ Kind := .daemonSet, Name := "ds" }],
    NodeName := "node" }

/-- Pod `jobPod` of the test. -/
def jobPod : Pod :=
  { basePod "bar" "default" with
    OwnerReferences := [{ Kind := .job, Name := "job" }] }

/-- Pod `rsPod` of the test. -/
def rsPod : Pod :=
  { basePod "bar" "default" with
    OwnerReferences := [{ Kind := .replicaSet, Name := "rs" }],
    NodeName := "node" }

/-- Pod `rsPodDeleted` of the test: its deletion timestamp is one hour
before `now`. -/
def rsPodDeleted (now : Int) : Pod :=
  { rsPod with DeletionTimestamp := some (now - 3600) }

/-- Pod `nakedPod` of the test. -/
def nakedPod : Pod :=
  { basePod "bar" "default" with NodeName := "node" }

/-- Pod `emptydirPod` of the test. -/
def emptydirPod : Pod :=
  { nakedPod with Volumes := [{ Name := "scratch", Source := .emptyDir "" }] }

/-- Pod `terminalPod` of the test. -/
def terminalPod : Pod :=
  { nakedPod with RestartPolicy := .onFailure, Phase := .succeeded }

/-- Pod `failedPod` of the test. -/
def failedPod : Pod :=
  { nakedPod with RestartPolicy := .never, Phase := .failed }

/-- Pod `evictedPod` of the test. -/
def evictedPod : Pod :=
  { nakedPod with RestartPolicy := .always, Phase := .failed }

/-- Pod `safePod` of the test. -/
def safePod : Pod :=
  { nakedPod with SafeToEvict := .explicitTrue }

/-- Pod `unsafeRcPod` of the test. -/
def unsafeRcPod : Pod :=
  { rcPod with SafeToEvict := .explicitFalse }

/-- Pod `unsafeJobPod` of the test. -/
def unsafeJobPod : Pod :=
  { jobPod with SafeToEvict := .explicitFalse }

/-- Pod `kubeSystemSafePod` of the test. -/
def kubeSystemSafePod : Pod :=
  { basePod "bar" "kube-system" with NodeName := "node", SafeToEvict := .explicitTrue }

/-- Pod `emptydirSafePod` of the test. -/
def emptydirSafePod : Pod :=
  { emptydirPod with SafeToEvict := .explicitTrue }

/-- Budget `emptyPDB` of the test. -/
def emptyPDB : PodDisruptionBudget :=
  { Namespace := "", Selector := none }

/-- Budget `kubeSystemPDB` of the test. -/
def kubeSystemPDB : PodDisruptionBudget :=
  { Namespace := "kube-system", Selector := some { MatchLabels := [("k8s-app", "bar")] } }

/-- Budget `kubeSystemFakePDB` of the test. -/
def kubeSystemFakePDB : PodDisruptionBudget :=
  { Namespace := "kube-system", Selector := some { MatchLabels := [("k8s-app", "foo")] } }

/-- Budget `defaultNamespacePDB` of the test. -/
def defaultNamespacePDB : PodDisruptionBudget :=
  { Namespace := "default", Selector := some { MatchLabels := [("k8s-app", "PDB-managed pod")] } }

/-- Policy of the test call: the nodes with local storage are skipped and no
check is waived.  The grace period is not an argument of the call; two
minutes are taken here. -/
def testFlags : PolicyFlags :=
  { allowLocalStorageEviction := false, allowUnreplicatedEviction := false,
    terminationGracePeriodSeconds := 120 }

/-- Lookup channel of a cluster that holds exactly the listed controllers. -/
def clusterWith (objs : List (ControllerKind × String × String)) : Lookup :=
  fun k ns name => if (k, ns, name) ∈ objs then .found else .notFound

/-- The controllers `rc`, `ds`, `job` and `rs` of the test, all in "default". -/
def testCluster : Lookup :=
  clusterWith [(.replicationController, "default", "rc"), (.daemonSet, "default", "ds"),
    (.job, "default", "job"), (.replicaSet, "default", "rs")]

/-! ### Further pods, variants of the pods of the test -/

/-- The naked pod of the test with a deletion timestamp `t`. -/
def nakedPodDeleted (t : Int) : Pod :=
  { nakedPod with DeletionTimestamp := some t }

/-- The kube-system pod of the test with the annotation set to "true". -/
def kubeSystemRcSafePod : Pod :=
  { kubeSystemRcPod with SafeToEvict := .explicitTrue }

/-- The kube-system pod of the test, owned by a daemonset instead. -/
def kubeSystemDsPod : Pod :=
  { kubeSystemRcPod with OwnerReferences := [{ Kind := .daemonSet, Name := "ds" }] }

/-- The kube-system pod of the test with a deletion timestamp `t`. -/
def kubeSystemRcPodDeleted (t : Int) : Pod :=
  { kubeSystemRcPod with DeletionTimestamp := some t }

/-- The kube-system pod of the test in phase succeeded. -/
def kubeSystemRcPodSucceeded : Pod :=
  { kubeSystemRcPod with Phase := .succeeded }

/-- The policy of the test call, but with unreplicated eviction allowed. -/
def unreplicatedFlags : PolicyFlags :=
  { testFlags with allowUnreplicatedEviction := true }

/-- A cluster in which every controller looked up exists. -/
def fullCluster : Lookup :=
  fun _ _ _ => .found

/-- The kube-system pod of the test with an EmptyDir volume. -/
def kubeSystemRcEmptydirPod : Pod :=
  { kubeSystemRcPod with Volumes := [{ Name := "scratch", Source := .emptyDir "" }] }

/-! ### The table of `TestDrain` -/

/-- One row of the table of `TestDrain` (drain_test.go, lines 353-523): the
description, the pods, the budgets, the names of the registered replication
controllers and replica sets, and the two expectations. -/
structure TestRow where
  description : String
  pods : List Pod
  pdbs : List PodDisruptionBudget
  rcs : List String
  replicaSets : List String
  expectFatal : Bool
  expectPods : List Pod
  deriving DecidableEq, Repr

/-- The rows of `TestDrain` in their order; `now` is the time of the call,
one hour after the deletion timestamp of `rsPodDeleted`. -/
def drainTests (now : Int) : List TestRow :=
  [{ description := "RC-managed pod", pods := [rcPod], pdbs := [], rcs := ["rc"],
     replicaSets := [], expectFatal := false, expectPods := [rcPod] },
   { description := "DS-managed pod", pods := [dsPod], pdbs := [], rcs := [],
     replicaSets := [], expectFatal := false, expectPods := [] },
   { description := "Job-managed pod", pods := [jobPod], pdbs := [], rcs := ["rc"],
     replicaSets := [], expectFatal := false, expectPods := [jobPod] },
   { description := "RS-managed pod", pods := [rsPod], pdbs := [], rcs := [],
     replicaSets := ["rs"], expectFatal := false, expectPods := [rsPod] },
   { description := "RS-managed pod that is being deleted", pods := [rsPodDeleted now],
     pdbs := [], rcs := [], replicaSets := ["rs"], expectFatal := false, expectPods := [] },
   { description := "naked pod", pods := [nakedPod], pdbs := [], rcs := [],
     replicaSets := [], expectFatal := true, expectPods := [] },
   { description := "pod with EmptyDir", pods := [emptydirPod], pdbs := [], rcs := [],
     replicaSets := [], expectFatal := true, expectPods := [] },
   { description := "failed pod", pods := [failedPod], pdbs := [], rcs := [],
     replicaSets := [], expectFatal := false, expectPods := [failedPod] },
   { description := "evicted pod", pods := [evictedPod], pdbs := [], rcs := [],
     replicaSets := [], expectFatal := false, expectPods := [evictedPod] },
   { description := "pod in terminal state", pods := [terminalPod], pdbs := [], rcs := [],
     replicaSets := [], expectFatal := false, expectPods := [terminalPod] },
   { description := "pod with PodSafeToEvict annotation", pods := [safePod], pdbs := [],
     rcs := [], replicaSets := [], expectFatal := false, expectPods := [safePod] },
   { description := "kube-system pod with PodSafeToEvict annotation",
     pods := [kubeSystemSafePod], pdbs := [], rcs := [], replicaSets := [],
     expectFatal := false, expectPods := [kubeSystemSafePod] },
   { description := "pod with EmptyDir and PodSafeToEvict annotation",
     pods := [emptydirSafePod], pdbs := [], rcs := [], replicaSets := [],
     expectFatal := false, expectPods := [emptydirSafePod] },
   { description := "RC-managed pod with PodSafeToEvict=false annotation",
     pods := [unsafeRcPod], pdbs := [], rcs := ["rc"], replicaSets := [],
     expectFatal := true, expectPods := [] },
   { description := "Job-managed pod with PodSafeToEvict=false annotation",
     pods := [unsafeJobPod], pdbs := [], rcs := ["rc"], replicaSets := [],
     expectFatal := true, expectPods := [] },
   { description := "empty PDB with RC-managed pod", pods := [rcPod], pdbs := [emptyPDB],
     rcs := ["rc"], replicaSets := [], expectFatal := false, expectPods := [rcPod] },
   { description := "kube-system PDB with matching kube-system pod",
     pods := [kubeSystemRcPod], pdbs := [kubeSystemPDB], rcs := ["rc"], replicaSets := [],
     expectFatal := false, expectPods := [kubeSystemRcPod] },
   { description := "kube-system PDB with non-matching kube-system pod",
     pods := [kubeSystemRcPod], pdbs := [kubeSystemFakePDB], rcs := ["rc"],
     replicaSets := [], expectFatal := true, expectPods := [] },
   { description := "kube-system PDB with default namespace pod", pods := [rcPod],
     pdbs := [kubeSystemPDB], rcs := ["rc"], replicaSets := [], expectFatal := false,
     expectPods := [rcPod] },
   { description := "default namespace PDB with matching labels kube-system pod",
     pods := [kubeSystemRcPod], pdbs := [defaultNamespacePDB], rcs := ["rc"],
     replicaSets := [], expectFatal := true, expectPods := [] }]

/-- The checks of the loop that closes `TestDrain` (lines 546-563) on one row:
an error exactly when the row expects one, and as many pods as expected. -/
def rowHolds (flags : PolicyFlags) (now : Int) (lookup : Lookup) (row : TestRow) : Bool :=
  let result := Evaluate flags now lookup row.pdbs row.pods
  (result.2.isSome == row.expectFatal) && (result.1.length == row.expectPods.length)

end Drain

namespace Mcm

/-! ## The MCM node group (mcm_cloud_provider.go) -/

/-- Value of a Go `int` or `int64` (64 bits, two's complement) holding the
mathematical integer `x`: sums are taken modulo `2^64`. -/
def wrapInt64 (x : Int) : Int :=
  (x + 2 ^ 63) % 2 ^ 64 - 2 ^ 63

/-- The integers a Go `int` or `int64` can hold. -/
def isInt64 (x : Int) : Prop :=
  -(2 ^ 63) ≤ x ∧ x < 2 ^ 63

instance (x : Int) : Decidable (isInt64 x) := by
  unfold isInt64; infer_instance

/-- Pieces of a character list between the occurrences of `sep`. -/
def splitChars (sep : Char) : List Char → List (List Char)
  | [] => [[]]
  | c :: cs =>
    if c = sep then [] :: splitChars sep cs
    else
      match splitChars sep cs with
      | [] => [[c]]
      | seg :: segs => (c :: seg) :: segs

/-- Go `strings.Split(s, "/")`. -/
def splitSlash (s : String) : List String :=
  (splitChars '/' s.data).map String.mk

/-- The expression `parts[len(parts)-1]` on `strings.Split(s, "/")`. -/
def lastSegment (s : String) : String :=
  (splitSlash s).getLastD ""

/-- Ref contains a reference to the name of the machine-deployment. -/
structure Ref where
  Name : String
  Namespace : String
  deriving DecidableEq, Repr

/-- Fields of a machine object that the provider reads. -/
structure Machine where
  Name : String
  Namespace : String
  ProviderID : String
  deriving DecidableEq, Repr

/-- Fields of a node that the provider reads (`Name`, `Spec.ProviderID`). -/
structure Node where
  Name : String
  ProviderID : String
  deriving DecidableEq, Repr

/-- MachineDeployment implements the NodeGroup interface; the manager it
points to is passed to each method separately. -/
structure MachineDeployment extends Ref where
  minSize : Int
  maxSize : Int
  deriving DecidableEq, Repr

/-- Errors returned by the node-group methods; `manager` stands for an error
handed up from a call of the manager. -/
inductive McmError where
  | sizeIncreaseMustBePositive
  | sizeIncreaseTooLarge (desired max : Int)
  | sizeDecreaseMustBeNegative
  | deleteExistingNodes (targetSize delta : Int) (nodes : List String)
  | unknownMachineDeployment (node : String)
  | minSizeReached
  | differentMachineDeployment (node id : String)
  | couldNotListMachines (cause : String)
  | machineNotFound (id : String)
  | failedToParseNodeGroupSpec (cause : String)
  | manager (msg : String)
  deriving DecidableEq, Repr

/-- The reads of `McmManager` (mcm_manager.go is not among the sources), taken
as parameters: the machine listing and the three getters.  Each listing is a
call of its own to the machine client: `listMachines` answers the first
listing of a run of a method, `listMachinesAgain k` the listing number
`k + 1` of a run that lists more than once. -/
structure McmManager where
  listMachines : Except String (List Machine)
  GetMachineDeploymentSize : MachineDeployment → Except McmError Int
  GetMachineDeploymentNodes : MachineDeployment → Except McmError (List String)
  GetMachineDeploymentForMachine : Ref → Except McmError (Option MachineDeployment)
  listMachinesAgain : Nat → Except String (List Machine)

/-- Answer to the listing number `k` of a run, counted from 0. -/
def McmManager.listing (m : McmManager) : Nat → Except String (List Machine)
  | 0 => m.listMachines
  | k + 1 => m.listMachinesAgain k

/-- The manager as the listing number `k` of a run finds it. -/
def McmManager.atListing (m : McmManager) (k : Nat) : McmManager :=
  { m with listMachines := m.listing k }

/-- The two writes of `McmManager` a node-group method can end in.  A `nil`
entry of the `[]*Ref` slice is `none`. -/
inductive Call where
  | SetMachineDeploymentSize (md : MachineDeployment) (size : Int)
  | DeleteMachines (machines : List (Option Ref))
  deriving DecidableEq, Repr

/-- How a node-group method ends: it returns an error of its own without
writing, or it makes one write and returns what the write returns. -/
inductive Outcome where
  | failed (e : McmError)
  | called (c : Call)
  deriving DecidableEq, Repr

/-- The writes made on the manager. -/
def Outcome.calls : Outcome → List Call
  | .failed _ => []
  | .called c => [c]

/-- MaxSize returns maximum size of the node group. -/
def MachineDeployment.MaxSize (md : MachineDeployment) : Int :=
  md.maxSize

/-- MinSize returns minimum size of the node group. -/
def MachineDeployment.MinSize (md : MachineDeployment) : Int :=
  md.minSize

/-- Id returns machinedeployment id. -/
def MachineDeployment.Id (md : MachineDeployment) : String :=
  md.Name

/-- The loop of `ReferenceFromProviderID`: name and namespace of the first
machine whose provider id ends in the same segment, two empty strings if
there is none. -/
def findMachine (id : String) : List Machine → String × String
  | [] => ("", "")
  | machine :: rest =>
    if lastSegment machine.ProviderID = lastSegment id then (machine.Name, machine.Namespace)
    else findMachine id rest

/-- ReferenceFromProviderID extracts the Ref from providerId. -/
def ReferenceFromProviderID (m : McmManager) (id : String) : Except McmError Ref :=
  match m.listMachines with
  | .error e => .error (.couldNotListMachines e)
  | .ok machines =>
    let found := findMachine id machines
    if found.1 = "" then .error (.machineNotFound id)
    else .ok { Name := found.1, Namespace := found.2 }

/-- IncreaseSize of the Machinedeployment. -/
def IncreaseSize (m : McmManager) (md : MachineDeployment) (delta : Int) : Outcome :=
  if delta ≤ 0 then .failed .sizeIncreaseMustBePositive
  else
    match m.GetMachineDeploymentSize md with
    | .error e => .failed e
    | .ok size =>
      if wrapInt64 (size + delta) > md.MaxSize then
        .failed (.sizeIncreaseTooLarge (wrapInt64 (size + delta)) md.MaxSize)
      else .called (.SetMachineDeploymentSize md (wrapInt64 (size + delta)))

/-- DecreaseTargetSize decreases the target size of the node group. -/
def DecreaseTargetSize (m : McmManager) (md : MachineDeployment) (delta : Int) : Outcome :=
  if delta ≥ 0 then .failed .sizeDecreaseMustBeNegative
  else
    match m.GetMachineDeploymentSize md with
    | .error e => .failed e
    | .ok size =>
      match m.GetMachineDeploymentNodes md with
      | .error e => .failed e
      | .ok nodes =>
        if wrapInt64 (size + delta) < (nodes.length : Int) then
          .failed (.deleteExistingNodes size delta nodes)
        else .called (.SetMachineDeploymentSize md (wrapInt64 (size + delta)))

/-- Belongs returns true if the given node belongs to the NodeGroup. -/
def Belongs (m : McmManager) (md : MachineDeployment) (node : Node) : Except McmError Bool :=
  match ReferenceFromProviderID m node.ProviderID with
  | .error e => .error e
  | .ok ref =>
    match m.GetMachineDeploymentForMachine ref with
    | .error e => .error e
    | .ok none => .error (.unknownMachineDeployment node.Name)
    | .ok (some targetMd) => if targetMd.Id ≠ md.Id then .ok false else .ok true

/-- The loop of `DeleteNodes` over the nodes, `machines` being the slice
built so far and `k` the number of listings made so far: `Belongs` lists the
machines, and `ReferenceFromProviderID` lists them once more.  The error of
this second `ReferenceFromProviderID` is dropped by the source, which leaves
a `nil` reference. -/
def deleteNodesLoop (m : McmManager) (md : MachineDeployment) :
    List Node → Nat → List (Option Ref) → Except McmError (List (Option Ref))
  | [], _, machines => .ok machines
  | node :: rest, k, machines =>
    match Belongs (m.atListing k) md node with
    | .error e => .error e
    | .ok belongs =>
      let ref := (ReferenceFromProviderID (m.atListing (k + 1)) node.ProviderID).toOption
      if belongs != true then .error (.differentMachineDeployment node.Name md.Id)
      else deleteNodesLoop m md rest (k + 2) (machines ++ [ref])

/-- DeleteNodes deletes the nodes from the group. -/
def DeleteNodes (m : McmManager) (md : MachineDeployment) (nodes : List Node) : Outcome :=
  match m.GetMachineDeploymentSize md with
  | .error e => .failed e
  | .ok size =>
    if size ≤ md.MinSize then .failed .minSizeReached
    else
      match deleteNodesLoop m md nodes 0 [] with
      | .error e => .failed e
      | .ok machines => .called (.DeleteMachines machines)

/-! ### Sample objects -/

/-- A machine deployment "md" of namespace "shoot" with sizes 1 to 10. -/
def sampleDeployment : MachineDeployment :=
  { Name := "md", Namespace := "shoot", minSize := 1, maxSize := 10 }

/-- Two machines of the sample deployment. -/
def sampleMachines : List Machine :=
  [{ Name := "m1", Namespace := "shoot", ProviderID := "aws:///eu-west-1/i-1" },
   { Name := "m2", Namespace := "shoot", ProviderID := "aws:///eu-west-1/i-2" }]

/-- A manager whose deployments all have target size `size` and the node
names `nodes`, and whose machines all belong to the sample deployment; every
listing gives the sample machines. -/
def sampleManager (size : Int) (nodes : List String) : McmManager :=
  { listMachines := .ok sampleMachines,
    GetMachineDeploymentSize := fun _ => .ok size,
    GetMachineDeploymentNodes := fun _ => .ok nodes,
    GetMachineDeploymentForMachine := fun _ => .ok (some sampleDeployment),
    listMachinesAgain := fun _ => .ok sampleMachines }

/-- The nodes of the two sample machines. -/
def sampleNodes : List Node :=
  [{ Name := "n2", ProviderID := "aws:///eu-west-1/i-2" },
   { Name := "n1", ProviderID := "aws:///eu-west-1/i-1" }]

/-- The sample manager at size 3, but its second listing, the one repeated
after the membership check of the first node, fails. -/
def flakyManager : McmManager :=
  { sampleManager 3 [] with
    listMachinesAgain := fun k => if k = 0 then .error "timeout" else .ok sampleMachines }

end Mcm

namespace Go

/-- A run-time panic of the Go program, which ends the call without a
result. -/
inductive Panic where
  | nilPointerDereference
  | indexOutOfRange
  deriving DecidableEq, Repr

end Go

namespace Mcm

/-! ## Building the provider from node-group specs -/

/-- Fields of `dynamic.NodeGroupSpec` that the provider reads. -/
structure NodeGroupSpec where
  MinSize : Int
  MaxSize : Int
  Name : String
  deriving DecidableEq, Repr

/-- Type of `dynamic.SpecFromString(value, supportScaleToZero)`; the function
belongs to the package config/dynamic and is taken as a parameter. -/
abbrev SpecParser := String → Bool → Except String NodeGroupSpec

/-- Go `strings.Split(s, ".")`. -/
def splitDot (s : String) : List String :=
  (splitChars '.' s.data).map String.mk

/-- The function `buildMachineDeployment`. -/
def buildMachineDeployment (minSize maxSize : Int) (ns name : String) : MachineDeployment :=
  { Name := name, Namespace := ns, minSize := minSize, maxSize := maxSize }

/-- The function `buildMachineDeploymentFromSpec`.  The outer result is the
panic of `s[1]` when the name has no "."; the inner one is the returned
error. -/
def buildMachineDeploymentFromSpec (SpecFromString : SpecParser) (value : String) :
    Except Go.Panic (Except McmError MachineDeployment) :=
  match SpecFromString value true with
  | .error e => .ok (.error (.failedToParseNodeGroupSpec e))
  | .ok spec =>
    match splitDot spec.Name with
    | ns :: name :: _ => .ok (.ok (buildMachineDeployment spec.MinSize spec.MaxSize ns name))
    | _ => .error .indexOutOfRange

/-- The struct `mcmCloudProvider`; the resource limiter is handed through
unread and its type is a parameter. -/
structure mcmCloudProvider (ρ : Type) where
  mcmManager : McmManager
  machinedeployments : List MachineDeployment
  resourceLimiter : ρ

/-- The method `addMachineDeployment`. -/
def mcmCloudProvider.addMachineDeployment {ρ : Type} (mcm : mcmCloudProvider ρ)
    (machinedeployment : MachineDeployment) : mcmCloudProvider ρ :=
  { mcm with machinedeployments := mcm.machinedeployments ++ [machinedeployment] }

/-- The method `addNodeGroup`: adds the node group defined in the string spec,
of the format minNodes:maxNodes:namespace.machineDeploymentName. -/
def mcmCloudProvider.addNodeGroup {ρ : Type} (SpecFromString : SpecParser)
    (mcm : mcmCloudProvider ρ) (spec : String) :
    Except Go.Panic (Except McmError (mcmCloudProvider ρ)) :=
  match buildMachineDeploymentFromSpec SpecFromString spec with
  | .error p => .error p
  | .ok (.error e) => .ok (.error e)
  | .ok (.ok machinedeployment) => .ok (.ok (mcm.addMachineDeployment machinedeployment))

/-- The loop of `buildStaticallyDiscoveringProvider` over the specs. -/
def addNodeGroups {ρ : Type} (SpecFromString : SpecParser) :
    mcmCloudProvider ρ → List String → Except Go.Panic (Except McmError (mcmCloudProvider ρ))
  | mcm, [] => .ok (.ok mcm)
  | mcm, spec :: rest =>
    match mcm.addNodeGroup SpecFromString spec with
    | .error p => .error p
    | .ok (.error e) => .ok (.error e)
    | .ok (.ok mcm1) => addNodeGroups SpecFromString mcm1 rest

/-- The function `buildStaticallyDiscoveringProvider`. -/
def buildStaticallyDiscoveringProvider {ρ : Type} (SpecFromString : SpecParser)
    (mcmManager : McmManager) (specs : List String) (resourceLimiter : ρ) :
    Except Go.Panic (Except McmError (mcmCloudProvider ρ)) :=
  addNodeGroups SpecFromString
    { mcmManager := mcmManager, machinedeployments := [], resourceLimiter := resourceLimiter }
    specs

/-- NodeGroups returns all node groups configured for this cloud provider. -/
def mcmCloudProvider.NodeGroups {ρ : Type} (mcm : mcmCloudProvider ρ) : List MachineDeployment :=
  mcm.machinedeployments.foldl (fun result machinedeployment => result ++ [machinedeployment]) []

/-- One expected node group: minimum, maximum, namespace and name. -/
structure GroupShape where
  minNodes : Int
  maxNodes : Int
  ns : String
  name : String
  deriving DecidableEq, Repr

/-- The spec string `value` is of the form
minNodes:maxNodes:namespace.machineDeploymentName for the shape `g`: the
parser reads the two sizes and the name `namespace.machineDeploymentName`. -/
def hasShape (SpecFromString : SpecParser) (value : String) (g : GroupShape) : Prop :=
  SpecFromString value true =
    .ok { MinSize := g.minNodes, MaxSize := g.maxNodes, Name := g.ns ++ "." ++ g.name }

/-- The node group matches the shape. -/
def matchesShape (md : MachineDeployment) (g : GroupShape) : Prop :=
  md.MinSize = g.minNodes ∧ md.MaxSize = g.maxNodes ∧ md.Namespace = g.ns ∧ md.Id = g.name

/-- The node group built for a shape. -/
def shapeDeployment (g : GroupShape) : MachineDeployment :=
  buildMachineDeployment g.minNodes g.maxNodes g.ns g.name

/-! ### Further sample objects -/

/-- A stand-in for the parser that knows four spec strings. -/
def sampleSpecFromString : SpecParser := fun value _ =>
  if value = "1:10:shoot.md" then .ok { MinSize := 1, MaxSize := 10, Name := "shoot.md" }
  else if value = "0:3:garden.pool" then .ok { MinSize := 0, MaxSize := 3, Name := "garden.pool" }
  else if value = "1:3:shoot.worker.v2" then
    .ok { MinSize := 1, MaxSize := 3, Name := "shoot.worker.v2" }
  else if value = "1:3:md" then .ok { MinSize := 1, MaxSize := 3, Name := "md" }
  else .error "wrong nodes configuration"

/-- A machine list whose first machine has an empty name. -/
def namelessMachines : List Machine :=
  [{ Name := "", Namespace := "shoot", ProviderID := "aws:///eu-west-1/i-1" },
   { Name := "m1", Namespace := "shoot", ProviderID := "aws:///eu-west-1/i-1" }]

/-- A manager that lists the given machines, at every listing, and owns
every machine by the deployment `owner`. -/
def managerOf (machines : List Machine) (owner : Option MachineDeployment) : McmManager :=
  { listMachines := .ok machines,
    GetMachineDeploymentSize := fun _ => .ok 3,
    GetMachineDeploymentNodes := fun _ => .ok [],
    GetMachineDeploymentForMachine := fun _ => .ok owner,
    listMachinesAgain := fun _ => .ok machines }

/-- A machine deployment "md" of another namespace than the sample one. -/
def otherNamespaceDeployment : MachineDeployment :=
  { Name := "md", Namespace := "garden", minSize := 1, maxSize := 10 }

end Mcm


namespace Validation

/-! ## Validation of the AWS machine class (awsmachineclass.go) -/

/-- The constant `nameMaxLength`. -/
def nameMaxLength : Nat := 63

/-- The constant `nameFmt`. -/
def nameFmt : String := "[-a-z0-9]+"

/-- A character of the class `[-a-z0-9]`. -/
def isNameChar (c : Char) : Bool :=
  c == '-' || ('a' ≤ c && c ≤ 'z') || ('0' ≤ c && c ≤ '9')

/-- The test `nameRegexp.MatchString(value)` for the anchored expression
`^[-a-z0-9]+$`: at least one character, each of the class. -/
def nameRegexpMatchString (value : String) : Bool :=
  !value.data.isEmpty && value.data.all isNameChar

/-- The two messages `validateName` can return (`MaxLenError`, `RegexError`). -/
inductive NameError where
  | maxLen (length : Nat)
  | regex (fmt sample : String)
  deriving DecidableEq, Repr

/-- validateName is the validation function for object names.  `len(value)`
is the length in bytes; the flag is not read. -/
def validateName (value : String) (_pfx : Bool) : List NameError :=
  let errs : List NameError := []
  let errs := if value.utf8ByteSize > nameMaxLength then errs ++ [.maxLen nameMaxLength] else errs
  let errs :=
    if !nameRegexpMatchString value then errs ++ [.regex nameFmt "name-40d-0983-1b89"] else errs
  errs

/-- A `field.Path`, as the list of its names from the root. -/
abbrev Path := List String

/-- The function `field.NewPath`. -/
def NewPath (name : String) : Path := [name]

/-- The method `Path.Child`. -/
def Child (p : Path) (name : String) : Path := p ++ [name]

/-- The error types of the package `field` used here and by the metadata
validation. -/
inductive ErrorType where
  | required
  | invalid
  deriving DecidableEq, Repr

/-- A `field.Error`: type (here `Kind`), field path and detail. -/
structure FieldError where
  Kind : ErrorType
  Field : Path
  Detail : String
  deriving DecidableEq, Repr

/-- A `field.ErrorList`. -/
abbrev ErrorList := List FieldError

/-- The function `field.Required`. -/
def Required (p : Path) (detail : String) : FieldError :=
  { Kind := .required, Field := p, Detail := detail }

/-- Fields of `corev1.SecretReference`. -/
structure SecretReference where
  Name : String
  Namespace : String
  deriving DecidableEq, Repr

/-- Fields of `machine.AWSIAMProfileSpec` read by the validation. -/
structure AWSIAMProfileSpec where
  Name : String
  deriving DecidableEq, Repr

/-- Fields of `machine.AWSEbsBlockDeviceSpec` read by the validation. -/
structure AWSEbsBlockDeviceSpec where
  VolumeSize : Int
  VolumeType : String
  deriving DecidableEq, Repr

/-- Fields of `machine.AWSBlockDeviceMappingSpec` read by the validation. -/
structure AWSBlockDeviceMappingSpec where
  Ebs : AWSEbsBlockDeviceSpec
  deriving DecidableEq, Repr

/-- Fields of `machine.AWSNetworkInterfaceSpec` read by the validation. -/
structure AWSNetworkInterfaceSpec where
  SubnetID : String
  SecurityGroupIDs : List String
  deriving DecidableEq, Repr

/-- Fields of `machine.AWSMachineClassSpec` read by the validation.  The
secret reference is a pointer, `none` when nil; the tags are the entries of a
map, with distinct keys, in the order the loop visits them. -/
structure AWSMachineClassSpec where
  AMI : String
  Region : String
  MachineType : String
  IAM : AWSIAMProfileSpec
  KeyName : String
  BlockDevices : List AWSBlockDeviceMappingSpec
  NetworkInterfaces : List AWSNetworkInterfaceSpec
  SecretRef : Option SecretReference
  Tags : List (String × String)
  deriving DecidableEq, Repr

/-- Fields of the object metadata. -/
structure ObjectMeta where
  Name : String
  Namespace : String
  deriving DecidableEq, Repr

/-- The type `machine.AWSMachineClass`. -/
structure AWSMachineClass where
  ObjectMeta : ObjectMeta
  Spec : AWSMachineClassSpec
  deriving DecidableEq, Repr

/-- Type of `apivalidation.ValidateObjectMeta(meta, requiresNamespace,
nameFn, fldPath)` of the apimachinery library, taken as a parameter. -/
abbrev ObjectMetaValidator :=
  ObjectMeta → Bool → (String → Bool → List NameError) → Path → ErrorList

/-- Is `sub` a leading part of `s`. -/
def startsWith : List Char → List Char → Bool
  | _, [] => true
  | [], _ :: _ => false
  | c :: cs, d :: ds => c == d && startsWith cs ds

/-- Does `sub` occur in `s`. -/
def containsChars : List Char → List Char → Bool
  | [], sub => sub.isEmpty
  | c :: cs, sub => startsWith (c :: cs) sub || containsChars cs sub

/-- Go `strings.Contains(s, substr)`. -/
def stringsContains (s substr : String) : Bool :=
  containsChars s.data substr.data

/-- The loop of `validateAWSClassSpecTags` over the keys: the pair
`(clusterName, nodeRole)` after the visit. -/
def scanTagKeys : List String → String × String → String × String
  | [], acc => acc
  | key :: rest, (clusterName, nodeRole) =>
    if stringsContains key "kubernetes.io/cluster/" then scanTagKeys rest (key, nodeRole)
    else if stringsContains key "kubernetes.io/role/" then scanTagKeys rest (clusterName, key)
    else scanTagKeys rest (clusterName, nodeRole)

/-- The function `validateAWSClassSpecTags`. -/
def validateAWSClassSpecTags (tags : List (String × String)) (fldPath : Path) : ErrorList :=
  let allErrs : ErrorList := []
  let found := scanTagKeys (tags.map fun kv => kv.1) ("", "")
  let allErrs :=
    if found.1 = "" then
      allErrs ++ [Required (Child fldPath "kubernetes.io/cluster/")
        "Tag required of the form kubernetes.io/cluster/****"]
    else allErrs
  let allErrs :=
    if found.2 = "" then
      allErrs ++ [Required (Child fldPath "kubernetes.io/role/")
        "Tag required of the form kubernetes.io/role/****"]
    else allErrs
  allErrs

/-- The function `validateBlockDevices`. -/
def validateBlockDevices (blockDevices : List AWSBlockDeviceMappingSpec) (fldPath : Path) :
    ErrorList :=
  match blockDevices with
  | _ :: _ :: _ => [Required (Child fldPath "") "Can only specify one (root) block device"]
  | [device] =>
    let allErrs : ErrorList := []
    let allErrs :=
      if device.Ebs.VolumeSize = 0 then
        allErrs ++ [Required (Child fldPath "ebs.volumeSize")
          "Please mention a valid ebs volume size"]
      else allErrs
    let allErrs :=
      if device.Ebs.VolumeType = "" then
        allErrs ++ [Required (Child fldPath "ebs.volumeType")
          "Please mention a valid ebs volume type"]
      else allErrs
    allErrs
  | [] => []

/-- The inner loop of `validateNetworkInterfaces` over the security group ids
of interface `i`, from index `j` on. -/
def validateSecurityGroupIDs (fldPath : Path) (i : Nat) : List String → Nat → ErrorList
  | [], _ => []
  | id :: rest, j =>
    (if id = "" then
      [Required (Child fldPath "securityGroupIDs")
        ("securityGroupIDs cannot be blank for networkInterface:" ++ toString i ++
          " securityGroupID:" ++ toString j)]
    else []) ++ validateSecurityGroupIDs fldPath i rest (j + 1)

/-- The outer loop of `validateNetworkInterfaces`, from index `i` on. -/
def validateInterfacesFrom (fldPath : Path) : List AWSNetworkInterfaceSpec → Nat → ErrorList
  | [], _ => []
  | networkInterface :: rest, i =>
    (if networkInterface.SubnetID = "" then
      [Required (Child fldPath "subnetID") "SubnetID is required"]
    else []) ++
    (if networkInterface.SecurityGroupIDs.length = 0 then
      [Required (Child fldPath "securityGroupIDs") "Mention at least one securityGroupID"]
    else validateSecurityGroupIDs fldPath i networkInterface.SecurityGroupIDs 0) ++
    validateInterfacesFrom fldPath rest (i + 1)

/-- The function `validateNetworkInterfaces`. -/
def validateNetworkInterfaces (networkInterfaces : List AWSNetworkInterfaceSpec)
    (fldPath : Path) : ErrorList :=
  if networkInterfaces.length = 0 then
    [Required (Child fldPath "") "Mention at least one NetworkInterface"]
  else validateInterfacesFrom fldPath networkInterfaces 0

/-- The function `validateSecretRef`: the read of `reference.Name` panics on
a nil reference. -/
def validateSecretRef (reference : Option SecretReference) (fldPath : Path) :
    Except Go.Panic ErrorList :=
  match reference with
  | none => .error .nilPointerDereference
  | some ref =>
    let allErrs : ErrorList := []
    let allErrs :=
      if ref.Name = "" then allErrs ++ [Required (Child fldPath "name") "name is required"]
      else allErrs
    let allErrs :=
      if ref.Namespace = "" then
        allErrs ++ [Required (Child fldPath "namespace") "namespace is required"]
      else allErrs
    .ok allErrs

/-- The five required-field checks that open `validateAWSMachineClassSpec`. -/
def requiredFieldChecks (spec : AWSMachineClassSpec) (fldPath : Path) : ErrorList :=
  let allErrs : ErrorList := []
  let allErrs :=
    if "" = spec.AMI then allErrs ++ [Required (Child fldPath "ami") "AMI is required"]
    else allErrs
  let allErrs :=
    if "" = spec.Region then allErrs ++ [Required (Child fldPath "region") "Region is required"]
    else allErrs
  let allErrs :=
    if "" = spec.MachineType then
      allErrs ++ [Required (Child fldPath "machineType") "MachineType is required"]
    else allErrs
  let allErrs :=
    if "" = spec.IAM.Name then
      allErrs ++ [Required (Child fldPath "iam.name") "IAM Name is required"]
    else allErrs
  let allErrs :=
    if "" = spec.KeyName then allErrs ++ [Required (Child fldPath "keyName") "KeyName is required"]
    else allErrs
  allErrs

/-- The function `validateAWSMachineClassSpec`. -/
def validateAWSMachineClassSpec (spec : AWSMachineClassSpec) (fldPath : Path) :
    Except Go.Panic ErrorList :=
  let allErrs := requiredFieldChecks spec fldPath
  let allErrs := allErrs ++ validateBlockDevices spec.BlockDevices (NewPath "spec.blockDevices")
  let allErrs :=
    allErrs ++ validateNetworkInterfaces spec.NetworkInterfaces (NewPath "spec.networkInterfaces")
  match validateSecretRef spec.SecretRef (NewPath "spec.secretRef") with
  | .error p => .error p
  | .ok secretErrs =>
    let allErrs := allErrs ++ secretErrs
    let allErrs := allErrs ++ validateAWSClassSpecTags spec.Tags (NewPath "spec.tags")
    .ok allErrs

/-- The function `internalValidateAWSMachineClass`. -/
def internalValidateAWSMachineClass (ValidateObjectMeta : ObjectMetaValidator)
    (mc : AWSMachineClass) : Except Go.Panic ErrorList :=
  let allErrs : ErrorList := []
  let allErrs := allErrs ++ ValidateObjectMeta mc.ObjectMeta true validateName (NewPath "metadata")
  match validateAWSMachineClassSpec mc.Spec (NewPath "spec") with
  | .error p => .error p
  | .ok specErrs => .ok (allErrs ++ specErrs)

/-- ValidateAWSMachineClass validates a AWSMachineClass and returns a list of
errors. -/
def ValidateAWSMachineClass (ValidateObjectMeta : ObjectMetaValidator)
    (mc : AWSMachineClass) : Except Go.Panic ErrorList :=
  internalValidateAWSMachineClass ValidateObjectMeta mc

/-- The five required strings of a spec, each with the name of its field and
its message, in the order ami, region, machineType, iam.name, keyName. -/
def requiredStrings (spec : AWSMachineClassSpec) : List (String × String × String) :=
  [("ami", "AMI is required", spec.AMI),
   ("region", "Region is required", spec.Region),
   ("machineType", "MachineType is required", spec.MachineType),
   ("iam.name", "IAM Name is required", spec.IAM.Name),
   ("keyName", "KeyName is required", spec.KeyName)]

/-! ### Sample objects -/

/-- A spec with the five required strings empty, no block device, no network
interface, no tag and the given secret reference. -/
def blankSpec (secretRef : Option SecretReference) : AWSMachineClassSpec :=
  { AMI := "", Region := "", MachineType := "", IAM := { Name := "" }, KeyName := "",
    BlockDevices := [], NetworkInterfaces := [], SecretRef := secretRef, Tags := [] }

/-- A machine class with the blank spec and no secret reference. -/
def blankMachineClass : AWSMachineClass :=
  { ObjectMeta := { Name := "class", Namespace := "shoot" }, Spec := blankSpec none }

/-- A spec with the region and the key name missing. -/
def partSpec : AWSMachineClassSpec :=
  { AMI := "ami-1", Region := "", MachineType := "m4.large", IAM := { Name := "role" },
    KeyName := "",
    BlockDevices := [],
    NetworkInterfaces := [{ SubnetID := "subnet-1", SecurityGroupIDs := ["sg-1"] }],
    SecretRef := some { Name := "secret", Namespace := "shoot" },
    Tags := [("kubernetes.io/cluster/shoot", "1"), ("kubernetes.io/role/node", "1")] }

/-- A metadata validation that finds nothing. -/
def acceptMeta : ObjectMetaValidator := fun _ _ _ _ => []

end Validation


/-! # Theorems -/

namespace Drain

/-! ## Aggregation lemmas -/

theorem firstBlocking_eq_none_iff (cls : Pod → Classification) (pods : List Pod) :
    firstBlocking (pods.map fun p => (p, cls p)) = none ↔
      ∀ p ∈ pods, ∀ c, cls p ≠ .blocking c := by
  induction pods with
  | nil => simp [firstBlocking]
  | cons q rest ih =>
    simp only [List.map_cons, List.mem_cons, forall_eq_or_imp]
    cases hq : cls q with
    | evictable => simp [firstBlocking, ih]
    | skip => simp [firstBlocking, ih]
    | blocking c => simp [firstBlocking]

theorem collectEvictable_eq_filter (cls : Pod → Classification) (pods : List Pod) :
    collectEvictable (pods.map fun p => (p, cls p)) =
      pods.filter fun p => decide (cls p = .evictable) := by
  induction pods with
  | nil => simp [collectEvictable]
  | cons q rest ih =>
    simp only [List.map_cons]
    cases hq : cls q with
    | evictable => simp [collectEvictable, ih, List.filter_cons, hq]
    | skip => simp [collectEvictable, ih, List.filter_cons, hq]
    | blocking c => simp [collectEvictable, ih, List.filter_cons, hq]

theorem Evaluate_of_blocking (flags : PolicyFlags) (now : Int) (lookup : Lookup)
    (budgets : List PodDisruptionBudget) (pods : List Pod) (p : Pod) (c : BlockCause)
    (hp : p ∈ pods) (hc : classify flags now lookup budgets p = .blocking c) :
    ∃ e, Evaluate flags now lookup budgets pods = ([], some e) := by
  cases hfb : firstBlocking (pods.map fun p => (p, classify flags now lookup budgets p)) with
  | none =>
    exact absurd hc ((firstBlocking_eq_none_iff _ pods).1 hfb p hp c)
  | some pc =>
    refine ⟨toError pc.1 pc.2, ?_⟩
    simp only [Evaluate, hfb]

theorem Evaluate_of_no_blocking (flags : PolicyFlags) (now : Int) (lookup : Lookup)
    (budgets : List PodDisruptionBudget) (pods : List Pod)
    (h : ∀ p ∈ pods, ∀ c, classify flags now lookup budgets p ≠ .blocking c) :
    Evaluate flags now lookup budgets pods =
      (pods.filter fun p => decide (classify flags now lookup budgets p = .evictable), none) := by
  simp only [Evaluate, (firstBlocking_eq_none_iff _ pods).2 h, collectEvictable_eq_filter]

theorem Evaluate_singleton (flags : PolicyFlags) (now : Int) (lookup : Lookup)
    (budgets : List PodDisruptionBudget) (p : Pod) :
    Evaluate flags now lookup budgets [p] =
      match classify flags now lookup budgets p with
      | .evictable => ([p], none)
      | .skip => ([], none)
      | .blocking c => ([], some (toError p c)) := by
  unfold Evaluate
  cases h : classify flags now lookup budgets p <;>
    simp [firstBlocking, collectEvictable, h]

/-! ## Budget index lemmas -/

theorem CoveredBy_of_no_budget (p : Pod) (budgets : List PodDisruptionBudget)
    (h : ∀ b ∈ budgets, b.Namespace ≠ p.Namespace) :
    CoveredBy p budgets = (false, true) := by
  have hnil : budgetIndex budgets p.Namespace = [] := by
    simp only [budgetIndex, List.filter_eq_nil_iff]
    intro b hb
    simpa using h b hb
  simp [CoveredBy, hnil]

theorem CoveredBy_of_unmatched (p : Pod) (budgets : List PodDisruptionBudget)
    (hns : ∃ b ∈ budgets, b.Namespace = p.Namespace)
    (hsel : ∀ b ∈ budgets, b.Namespace = p.Namespace → selects b p = false) :
    CoveredBy p budgets = (false, false) := by
  obtain ⟨b, hb, hbn⟩ := hns
  have hmem : b ∈ budgetIndex budgets p.Namespace := by
    simp [budgetIndex, List.mem_filter, hb, hbn]
  have hall : ∀ x ∈ budgetIndex budgets p.Namespace, selects x p = false := by
    intro x hx
    simp only [budgetIndex, List.mem_filter, beq_iff_eq] at hx
    exact hsel x hx.1 hx.2
  unfold CoveredBy
  cases hidx : budgetIndex budgets p.Namespace with
  | nil => rw [hidx] at hmem; cases hmem
  | cons c cs =>
    rw [hidx] at hall
    have hany : (c :: cs).any (fun x => selects x p) = false := by
      rw [List.any_eq_false]
      intro x hx
      simp [hall x hx]
    simp only [hany]
    rfl

theorem budgetRule_of_unmatched (p : Pod) (budgets : List PodDisruptionBudget)
    (hns : ∃ b ∈ budgets, b.Namespace = p.Namespace)
    (hsel : ∀ b ∈ budgets, b.Namespace = p.Namespace → selects b p = false) :
    budgetRule budgets p = .blocking (.policy .disruptionBudgetUnmatched) := by
  simp [budgetRule, CoveredBy_of_unmatched p budgets hns hsel]

theorem budgetRule_of_no_budget (p : Pod) (budgets : List PodDisruptionBudget)
    (h : ∀ b ∈ budgets, b.Namespace ≠ p.Namespace) (hns : p.Namespace ≠ systemNamespace) :
    budgetRule budgets p = .evictable := by
  simp [budgetRule, CoveredBy_of_no_budget p budgets h, hns]

theorem budgetRule_of_system_unselected (p : Pod) (budgets : List PodDisruptionBudget)
    (hns : p.Namespace = systemNamespace)
    (hsel : ∀ b ∈ budgets, b.Namespace = p.Namespace → selects b p = false) :
    budgetRule budgets p = .blocking (.policy .disruptionBudgetUnmatched) := by
  by_cases hex : ∃ b ∈ budgets, b.Namespace = p.Namespace
  · exact budgetRule_of_unmatched p budgets hex hsel
  · have hnone : ∀ b ∈ budgets, b.Namespace ≠ p.Namespace := by
      intro b hb hbn
      exact hex ⟨b, hb, hbn⟩
    simp [budgetRule, CoveredBy_of_no_budget p budgets hnone, hns]

/-! ## The claims on the drain decision -/

/-- C1. A pod whose safe-to-evict annotation is explicitly false is
classified Blocking with the reason unsafe-annotation, whatever its other
attributes, the policy, the time, the controllers and the budgets; `Evaluate`
on any pod list that contains it returns an error and no pods. -/
theorem unsafe_annotation_blocks (flags : PolicyFlags) (now : Int) (lookup : Lookup)
    (budgets : List PodDisruptionBudget) (p : Pod) (pods : List Pod)
    (h : p.SafeToEvict = .explicitFalse) (hp : p ∈ pods) :
    classify flags now lookup budgets p = .blocking (.policy .unsafeAnnotated) ∧
      ∃ e, Evaluate flags now lookup budgets pods = ([], some e) := by
  have hc : classify flags now lookup budgets p = .blocking (.policy .unsafeAnnotated) := by
    simp [classify, h]
  exact ⟨hc, Evaluate_of_blocking flags now lookup budgets pods p _ hp hc⟩

/-- Witness of C1 at the pods `unsafeRcPod` and `unsafeJobPod` of the test,
whose controllers exist. -/
theorem unsafe_annotation_blocks_witness :
    (unsafeRcPod.SafeToEvict = .explicitFalse ∧ unsafeRcPod ∈ [rcPod, unsafeRcPod] ∧
      (Resolve testCluster unsafeRcPod).controllerExists = true ∧
      classify testFlags 0 testCluster [] unsafeRcPod = .blocking (.policy .unsafeAnnotated) ∧
      ∃ e, Evaluate testFlags 0 testCluster [] [rcPod, unsafeRcPod] = ([], some e)) ∧
    (unsafeJobPod.SafeToEvict = .explicitFalse ∧ unsafeJobPod ∈ [unsafeJobPod] ∧
      (Resolve testCluster unsafeJobPod).controllerExists = true ∧
      classify testFlags 0 testCluster [] unsafeJobPod = .blocking (.policy .unsafeAnnotated) ∧
      ∃ e, Evaluate testFlags 0 testCluster [] [unsafeJobPod] = ([], some e)) :=
  ⟨⟨by decide, by decide, by decide,
      unsafe_annotation_blocks testFlags 0 testCluster [] unsafeRcPod [rcPod, unsafeRcPod]
        (by decide) (by decide)⟩,
    ⟨by decide, by decide, by decide,
      unsafe_annotation_blocks testFlags 0 testCluster [] unsafeJobPod [unsafeJobPod]
        (by decide) (by decide)⟩⟩

/-- C2. A pod whose safe-to-evict annotation is explicitly true is classified
Evictable, whatever its other attributes, the policy, the time, the
controllers and the budgets; `Evaluate` on the single-pod list returns no
error and exactly that pod. -/
theorem safe_annotation_evictable (flags : PolicyFlags) (now : Int) (lookup : Lookup)
    (budgets : List PodDisruptionBudget) (p : Pod)
    (h : p.SafeToEvict = .explicitTrue) :
    classify flags now lookup budgets p = .evictable ∧
      Evaluate flags now lookup budgets [p] = ([p], none) := by
  have hc : classify flags now lookup budgets p = .evictable := by
    simp [classify, h]
  exact ⟨hc, by rw [Evaluate_singleton, hc]⟩

/-- Witness of C2 at `emptydirSafePod` of the test, a naked pod with an
EmptyDir volume. -/
theorem safe_annotation_evictable_witness :
    emptydirSafePod.SafeToEvict = .explicitTrue ∧ emptydirSafePod.OwnerReferences = [] ∧
      HasLocalStorage emptydirSafePod = true ∧
      classify testFlags 0 testCluster [] emptydirSafePod = .evictable ∧
      Evaluate testFlags 0 testCluster [] [emptydirSafePod] = ([emptydirSafePod], none) :=
  ⟨by decide, by decide, by decide,
    safe_annotation_evictable testFlags 0 testCluster [] emptydirSafePod (by decide)⟩

/-- C3, as stated, fails: a pod without owner reference and without annotation
is returned as evictable when its phase is succeeded (`terminalPod`, the
row "pod in terminal state" of the test), is skipped when it has been
terminating for longer than the grace period, and is returned as evictable
under a policy that allows unreplicated eviction. -/
theorem naked_pod_not_always_blocking :
    (terminalPod.OwnerReferences = [] ∧ terminalPod.SafeToEvict = .absent ∧
      Evaluate testFlags 0 testCluster [] [terminalPod] = ([terminalPod], none)) ∧
    ((nakedPodDeleted 0).OwnerReferences = [] ∧ (nakedPodDeleted 0).SafeToEvict = .absent ∧
      Evaluate testFlags 3600 testCluster [] [nakedPodDeleted 0] = ([], none)) ∧
    (nakedPod.OwnerReferences = [] ∧ nakedPod.SafeToEvict = .absent ∧
      Evaluate unreplicatedFlags 0 testCluster [] [nakedPod] = ([nakedPod], none)) := by
  decide

/-- C3, amended. Under a policy that does not allow unreplicated eviction, a
pod without owner reference and without annotation that is neither
terminating beyond the grace period nor in a terminal phase blocks:
`Evaluate` on any pod list that contains it returns an error and no pods, and
on the single-pod list the error names the pod, with the reason naked-pod
unless the local-storage rule applies first. -/
theorem naked_pod_blocks (flags : PolicyFlags) (now : Int) (lookup : Lookup)
    (budgets : List PodDisruptionBudget) (p : Pod) (pods : List Pod)
    (hown : p.OwnerReferences = []) (hann : p.SafeToEvict = .absent)
    (hflag : flags.allowUnreplicatedEviction = false)
    (hterm : terminating flags now p = false) (hphase : terminal p = false)
    (hp : p ∈ pods) :
    (∃ e, Evaluate flags now lookup budgets pods = ([], some e)) ∧
      Evaluate flags now lookup budgets [p] =
        ([], some (.policyBlocked p.Namespace p.Name
          (if HasLocalStorage p && !flags.allowLocalStorageEviction then .localStorage
           else .nakedPod))) := by
  have hkind : controllerKind p = .noController := by simp [controllerKind, hown]
  have hc : classify flags now lookup budgets p =
      .blocking (.policy (if HasLocalStorage p && !flags.allowLocalStorageEviction
        then .localStorage else .nakedPod)) := by
    by_cases hl : (HasLocalStorage p && !flags.allowLocalStorageEviction) = true
    · simp [classify, hann, hkind, hterm, hphase, hl]
    · simp [classify, hann, hkind, hterm, hphase, hl, ownerRule, Resolve, hown, hflag]
  refine ⟨Evaluate_of_blocking flags now lookup budgets pods p _ hp hc, ?_⟩
  rw [Evaluate_singleton, hc]
  rfl

/-- Witness of the amended C3 at `nakedPod` of the test. -/
theorem naked_pod_blocks_witness :
    nakedPod.OwnerReferences = [] ∧ nakedPod.SafeToEvict = .absent ∧
      testFlags.allowUnreplicatedEviction = false ∧
      terminating testFlags 0 nakedPod = false ∧ terminal nakedPod = false ∧
      nakedPod ∈ [rcPod, nakedPod] ∧
      ((∃ e, Evaluate testFlags 0 testCluster [] [rcPod, nakedPod] = ([], some e)) ∧
        Evaluate testFlags 0 testCluster [] [nakedPod] =
          ([], some (.policyBlocked nakedPod.Namespace nakedPod.Name
            (if HasLocalStorage nakedPod && !testFlags.allowLocalStorageEviction
             then .localStorage else .nakedPod)))) :=
  ⟨by decide, by decide, by decide, by decide, by decide, by decide,
    naked_pod_blocks testFlags 0 testCluster [] nakedPod [rcPod, nakedPod]
      (by decide) (by decide) (by decide) (by decide) (by decide) (by decide)⟩

/-- C4, as stated, fails: in the namespace kube-system, whose only budget
`kubeSystemFakePDB` selects none of them, a pod annotated safe and a pod in
phase succeeded are returned as evictable, and a daemonset pod and a pod
terminating beyond the grace period are skipped. -/
theorem unmatched_budget_not_always_blocking :
    (∃ b ∈ [kubeSystemFakePDB], b.Namespace = kubeSystemRcSafePod.Namespace) ∧
    (∀ p ∈ [kubeSystemRcSafePod, kubeSystemRcPodSucceeded, kubeSystemDsPod,
        kubeSystemRcPodDeleted 0],
      ∀ b ∈ [kubeSystemFakePDB], b.Namespace = p.Namespace ∧ selects b p = false) ∧
    Evaluate testFlags 3600 fullCluster [kubeSystemFakePDB] [kubeSystemRcSafePod] =
      ([kubeSystemRcSafePod], none) ∧
    Evaluate testFlags 3600 fullCluster [kubeSystemFakePDB] [kubeSystemRcPodSucceeded] =
      ([kubeSystemRcPodSucceeded], none) ∧
    Evaluate testFlags 3600 fullCluster [kubeSystemFakePDB] [kubeSystemDsPod] = ([], none) ∧
    Evaluate testFlags 3600 fullCluster [kubeSystemFakePDB] [kubeSystemRcPodDeleted 0] =
      ([], none) := by
  decide

/-- C4, amended. Let at least one budget have the pod's namespace and let no
budget of that namespace select the pod. If the pod is not annotated safe,
not daemonset-managed, not terminating beyond the grace period and not in a
terminal phase, it is classified Blocking and `Evaluate` on any pod list that
contains it returns an error and no pods; if it is moreover fully compliant
(no annotation, no local storage, existing controller) the reason is
disruption-budget-unmatched. -/
theorem unmatched_budget_blocks (flags : PolicyFlags) (now : Int) (lookup : Lookup)
    (budgets : List PodDisruptionBudget) (p : Pod) (pods : List Pod)
    (hns : ∃ b ∈ budgets, b.Namespace = p.Namespace)
    (hsel : ∀ b ∈ budgets, b.Namespace = p.Namespace → selects b p = false)
    (hsafe : p.SafeToEvict ≠ .explicitTrue)
    (hds : controllerKind p ≠ .ofKind .daemonSet)
    (hterm : terminating flags now p = false) (hphase : terminal p = false)
    (hp : p ∈ pods) :
    (∃ c, classify flags now lookup budgets p = .blocking c) ∧
      (∃ e, Evaluate flags now lookup budgets pods = ([], some e)) ∧
      (p.SafeToEvict = .absent → HasLocalStorage p = false →
        (Resolve lookup p).controllerExists = true →
        classify flags now lookup budgets p =
          .blocking (.policy .disruptionBudgetUnmatched)) := by
  have hb := budgetRule_of_unmatched p budgets hns hsel
  have hown : ∃ c, ownerRule flags lookup budgets p = .blocking c := by
    unfold ownerRule Resolve
    cases hrefs : p.OwnerReferences with
    | nil =>
      cases hf : flags.allowUnreplicatedEviction <;> simp [hf, hb]
    | cons ref rest =>
      cases hl : lookup ref.Kind p.Namespace ref.Name <;> simp [hl, hb]
  have hcls : ∃ c, classify flags now lookup budgets p = .blocking c := by
    unfold classify
    by_cases h1 : p.SafeToEvict = .explicitFalse
    · exact ⟨.policy .unsafeAnnotated, by simp [h1]⟩
    · by_cases hl : (HasLocalStorage p && !flags.allowLocalStorageEviction) = true
      · exact ⟨.policy .localStorage, by simp [h1, hsafe, hds, hterm, hphase, hl]⟩
      · obtain ⟨c, hc⟩ := hown
        exact ⟨c, by simp [h1, hsafe, hds, hterm, hphase, hl, hc]⟩
  obtain ⟨c, hc⟩ := hcls
  refine ⟨⟨c, hc⟩, Evaluate_of_blocking flags now lookup budgets pods p c hp hc, ?_⟩
  intro hann hloc hex
  have hres : ownerRule flags lookup budgets p =
      .blocking (.policy .disruptionBudgetUnmatched) := by
    unfold ownerRule
    unfold Resolve at hex ⊢
    cases hrefs : p.OwnerReferences with
    | nil => simp [hrefs] at hex
    | cons ref rest =>
      rw [hrefs] at hex
      cases hl : lookup ref.Kind p.Namespace ref.Name <;> simp [hl] at hex ⊢
      exact hb
  simp [classify, hann, hds, hterm, hphase, hloc, hres]

/-- Witness of the amended C4 at `kubeSystemRcPod` and `kubeSystemFakePDB`,
the row "kube-system PDB with non-matching kube-system pod" of the test. -/
theorem unmatched_budget_blocks_witness :
    (∃ b ∈ [kubeSystemFakePDB], b.Namespace = kubeSystemRcPod.Namespace) ∧
      (∀ b ∈ [kubeSystemFakePDB], b.Namespace = kubeSystemRcPod.Namespace →
        selects b kubeSystemRcPod = false) ∧
      ((∃ c, classify testFlags 0 fullCluster [kubeSystemFakePDB] kubeSystemRcPod =
          .blocking c) ∧
        (∃ e, Evaluate testFlags 0 fullCluster [kubeSystemFakePDB] [kubeSystemRcPod] =
          ([], some e)) ∧
        (kubeSystemRcPod.SafeToEvict = .absent → HasLocalStorage kubeSystemRcPod = false →
          (Resolve fullCluster kubeSystemRcPod).controllerExists = true →
          classify testFlags 0 fullCluster [kubeSystemFakePDB] kubeSystemRcPod =
            .blocking (.policy .disruptionBudgetUnmatched))) :=
  ⟨by decide, by decide,
    unmatched_budget_blocks testFlags 0 fullCluster [kubeSystemFakePDB] kubeSystemRcPod
      [kubeSystemRcPod] (by decide) (by decide) (by decide) (by decide) (by decide)
      (by decide) (by decide)⟩

/-- C5, as stated, fails: `dsPod` and `rsPodDeleted` of the test have an
existing controller, no local storage and no annotation, and there is no
budget at all, yet `Evaluate` returns the empty list for each (the rows
"DS-managed pod" and "RS-managed pod that is being deleted" of the test);
and `kubeSystemRcPod`, with its controller existing and the only budget in
the namespace "default", makes `Evaluate` return an error (the row "default
namespace PDB with matching labels kube-system pod"). -/
theorem compliant_pod_not_always_returned :
    ((Resolve testCluster dsPod).controllerExists = true ∧ HasLocalStorage dsPod = false ∧
      dsPod.SafeToEvict = .absent ∧
      Evaluate testFlags 3600 testCluster [] [dsPod] = ([], none)) ∧
    ((Resolve testCluster (rsPodDeleted 3600)).controllerExists = true ∧
      HasLocalStorage (rsPodDeleted 3600) = false ∧
      (rsPodDeleted 3600).SafeToEvict = .absent ∧
      Evaluate testFlags 3600 testCluster [] [rsPodDeleted 3600] = ([], none)) ∧
    ((Resolve fullCluster kubeSystemRcPod).controllerExists = true ∧
      HasLocalStorage kubeSystemRcPod = false ∧ kubeSystemRcPod.SafeToEvict = .absent ∧
      (∀ b ∈ [defaultNamespacePDB], b.Namespace ≠ kubeSystemRcPod.Namespace) ∧
      Evaluate testFlags 3600 fullCluster [defaultNamespacePDB] [kubeSystemRcPod] =
        ([], some (.policyBlocked "kube-system" "bar" .disruptionBudgetUnmatched))) := by
  decide

/-- C5, amended. A pod outside the namespace kube-system that has an existing
controller other than a daemonset, no local storage and no safe-to-evict
annotation, and that is not terminating beyond the grace period, is evictable
under every budget list in which no budget has the pod's namespace:
`Evaluate` on the single-pod list returns no error and exactly that pod. -/
theorem compliant_pod_evictable (flags : PolicyFlags) (now : Int) (lookup : Lookup)
    (budgets : List PodDisruptionBudget) (p : Pod)
    (hex : (Resolve lookup p).controllerExists = true)
    (hloc : HasLocalStorage p = false) (hann : p.SafeToEvict = .absent)
    (hbud : ∀ b ∈ budgets, b.Namespace ≠ p.Namespace)
    (hns : p.Namespace ≠ "kube-system")
    (hds : controllerKind p ≠ .ofKind .daemonSet)
    (hterm : terminating flags now p = false) :
    classify flags now lookup budgets p = .evictable ∧
      Evaluate flags now lookup budgets [p] = ([p], none) := by
  have hb := budgetRule_of_no_budget p budgets hbud hns
  have hown : ownerRule flags lookup budgets p = .evictable := by
    unfold ownerRule
    unfold Resolve at hex ⊢
    cases hrefs : p.OwnerReferences with
    | nil => simp [hrefs] at hex
    | cons ref rest =>
      rw [hrefs] at hex
      cases hl : lookup ref.Kind p.Namespace ref.Name <;> simp [hl] at hex ⊢
      exact hb
  have hc : classify flags now lookup budgets p = .evictable := by
    cases hph : terminal p <;> simp [classify, hann, hds, hterm, hph, hloc, hown]
  exact ⟨hc, by rw [Evaluate_singleton, hc]⟩

/-- Witness of the amended C5 at `rcPod` of the test with the budget of
another namespace (the row "kube-system PDB with default namespace pod"). -/
theorem compliant_pod_evictable_witness :
    (Resolve testCluster rcPod).controllerExists = true ∧ HasLocalStorage rcPod = false ∧
      rcPod.SafeToEvict = .absent ∧
      (∀ b ∈ [kubeSystemPDB], b.Namespace ≠ rcPod.Namespace) ∧
      rcPod.Namespace ≠ "kube-system" ∧
      (classify testFlags 0 testCluster [kubeSystemPDB] rcPod = .evictable ∧
        Evaluate testFlags 0 testCluster [kubeSystemPDB] [rcPod] = ([rcPod], none)) :=
  ⟨by decide, by decide, by decide, by decide, by decide,
    compliant_pod_evictable testFlags 0 testCluster [kubeSystemPDB] rcPod
      (by decide) (by decide) (by decide) (by decide) (by decide) (by decide) (by decide)⟩

/-! ## Pods that are skipped -/

theorem firstBlocking_append_skip (cls : Pod → Classification) (p : Pod)
    (hskip : cls p = .skip) (l₁ l₂ : List Pod) :
    firstBlocking ((l₁ ++ p :: l₂).map fun q => (q, cls q)) =
      firstBlocking ((l₁ ++ l₂).map fun q => (q, cls q)) := by
  induction l₁ with
  | nil => simp [firstBlocking, hskip]
  | cons q rest ih =>
    simp only [List.cons_append, List.map_cons]
    cases hq : cls q <;> simp only [firstBlocking, ih]

theorem collectEvictable_append_skip (cls : Pod → Classification) (p : Pod)
    (hskip : cls p = .skip) (l₁ l₂ : List Pod) :
    collectEvictable ((l₁ ++ p :: l₂).map fun q => (q, cls q)) =
      collectEvictable ((l₁ ++ l₂).map fun q => (q, cls q)) := by
  induction l₁ with
  | nil => simp [collectEvictable, hskip]
  | cons q rest ih =>
    simp only [List.cons_append, List.map_cons]
    cases hq : cls q <;> simp only [collectEvictable, ih]

theorem Evaluate_mem_evictable (flags : PolicyFlags) (now : Int) (lookup : Lookup)
    (budgets : List PodDisruptionBudget) (pods : List Pod) (p : Pod)
    (hp : p ∈ (Evaluate flags now lookup budgets pods).1) :
    p ∈ pods ∧ classify flags now lookup budgets p = .evictable := by
  by_cases h : ∀ q ∈ pods, ∀ c, classify flags now lookup budgets q ≠ .blocking c
  · rw [Evaluate_of_no_blocking flags now lookup budgets pods h] at hp
    simpa [List.mem_filter] using hp
  · push_neg at h
    obtain ⟨q, hq, c, hc⟩ := h
    obtain ⟨e, he⟩ := Evaluate_of_blocking flags now lookup budgets pods q c hq hc
    rw [he] at hp
    cases hp

/-- A pod whose controller is a daemonset and that has no safe-to-evict
annotation is classified Skip, whatever its storage, phase, deletion
timestamp, the policy, the controllers and the budgets: it is in no list
`Evaluate` returns, and `Evaluate` returns the same pods and the same error
with the pod in the list as without it. -/
theorem daemonset_pod_skipped (flags : PolicyFlags) (now : Int) (lookup : Lookup)
    (budgets : List PodDisruptionBudget) (p : Pod)
    (hds : controllerKind p = .ofKind .daemonSet) (hann : p.SafeToEvict = .absent) :
    classify flags now lookup budgets p = .skip ∧
      (∀ pods, p ∉ (Evaluate flags now lookup budgets pods).1) ∧
      (∀ l₁ l₂, Evaluate flags now lookup budgets (l₁ ++ p :: l₂) =
        Evaluate flags now lookup budgets (l₁ ++ l₂)) := by
  have hc : classify flags now lookup budgets p = .skip := by
    simp [classify, hann, hds]
  refine ⟨hc, ?_, ?_⟩
  · intro pods hmem
    have := (Evaluate_mem_evictable flags now lookup budgets pods p hmem).2
    rw [hc] at this
    cases this
  · intro l₁ l₂
    simp only [Evaluate, firstBlocking_append_skip _ p hc, collectEvictable_append_skip _ p hc]

/-- C7. The decision is all-or-nothing. `Evaluate` returns an error exactly
when some pod of the list is classified Blocking, and then it returns no
pods; when it returns no error, the returned list is the list of the input
pods classified Evictable, in input order, and holds no pod classified
Skip. -/
theorem Evaluate_all_or_nothing (flags : PolicyFlags) (now : Int) (lookup : Lookup)
    (budgets : List PodDisruptionBudget) (pods : List Pod) :
    ((Evaluate flags now lookup budgets pods).2 ≠ none ↔
        ∃ p ∈ pods, ∃ c, classify flags now lookup budgets p = .blocking c) ∧
      ((Evaluate flags now lookup budgets pods).2 ≠ none →
        (Evaluate flags now lookup budgets pods).1 = []) ∧
      ((Evaluate flags now lookup budgets pods).2 = none →
        (Evaluate flags now lookup budgets pods).1 =
            pods.filter (fun p => decide (classify flags now lookup budgets p = .evictable)) ∧
          ∀ p ∈ (Evaluate flags now lookup budgets pods).1,
            classify flags now lookup budgets p ≠ .skip) := by
  by_cases h : ∀ q ∈ pods, ∀ c, classify flags now lookup budgets q ≠ .blocking c
  · have he := Evaluate_of_no_blocking flags now lookup budgets pods h
    refine ⟨?_, ?_, ?_⟩
    · rw [he]
      simp only [ne_eq, not_true_eq_false, false_iff]
      rintro ⟨p, hp, c, hc⟩
      exact h p hp c hc
    · rw [he]; simp
    · intro _
      refine ⟨by rw [he], ?_⟩
      intro p hp
      rw [(Evaluate_mem_evictable flags now lookup budgets pods p hp).2]
      simp
  · push_neg at h
    obtain ⟨q, hq, c, hc⟩ := h
    obtain ⟨e, he⟩ := Evaluate_of_blocking flags now lookup budgets pods q c hq hc
    refine ⟨?_, ?_, ?_⟩
    · rw [he]
      simp only [ne_eq, reduceCtorEq, not_false_eq_true, true_iff]
      exact ⟨q, hq, c, hc⟩
    · intro _; rw [he]
    · rw [he]; simp

end Drain

namespace Mcm

/-! ## 64-bit sums -/

theorem wrapInt64_of_isInt64 (x : Int) (h : isInt64 x) : wrapInt64 x = x := by
  unfold isInt64 at h
  unfold wrapInt64
  have h1 : (0 : Int) ≤ x + 2 ^ 63 := by linarith [h.1]
  have h2 : x + 2 ^ 63 < 2 ^ 64 := by
    have h3 := h.2
    norm_num at h3 ⊢
    linarith
  rw [Int.emod_eq_of_lt h1 h2]
  ring

/-- C8, as stated, fails on the 64-bit sum: with target size 1, maximum size
10 and delta `2^63 - 1`, the sum `s + delta` is above the maximum, yet the
wrapped sum is negative, the check passes and `SetMachineDeploymentSize` is
called with `-2^63`. -/
theorem IncreaseSize_overflow :
    isInt64 1 ∧ isInt64 (2 ^ 63 - 1) ∧ ¬ ((1 : Int) + (2 ^ 63 - 1) ≤ sampleDeployment.MaxSize) ∧
      (sampleManager 1 []).GetMachineDeploymentSize sampleDeployment = .ok 1 ∧
      IncreaseSize (sampleManager 1 []) sampleDeployment (2 ^ 63 - 1) =
        .called (.SetMachineDeploymentSize sampleDeployment (-(2 ^ 63))) := by
  refine ⟨by decide, by decide, by decide, rfl, by decide⟩

/-- C8, amended. For a machine deployment whose target size `s` is read
successfully and a delta such that `s + delta` does not exceed the largest
64-bit integer, `IncreaseSize(delta)` requests the size `s + delta` through
`SetMachineDeploymentSize` if and only if `delta > 0` and
`s + delta <= MaxSize()`; in every other case it returns an error and makes
no call. -/
theorem IncreaseSize_spec (m : McmManager) (md : MachineDeployment) (size delta : Int)
    (hsize : m.GetMachineDeploymentSize md = .ok size)
    (hs : isInt64 size) (hsum : size + delta < 2 ^ 63) :
    (IncreaseSize m md delta = .called (.SetMachineDeploymentSize md (size + delta)) ↔
        0 < delta ∧ size + delta ≤ md.MaxSize) ∧
      (¬ (0 < delta ∧ size + delta ≤ md.MaxSize) →
        (∃ e, IncreaseSize m md delta = .failed e) ∧ (IncreaseSize m md delta).calls = []) := by
  by_cases hd : delta ≤ 0
  · have hf : IncreaseSize m md delta = .failed .sizeIncreaseMustBePositive := by
      simp [IncreaseSize, hd]
    refine ⟨?_, ?_⟩
    · rw [hf]
      constructor
      · intro h; cases h
      · intro h; omega
    · intro _
      exact ⟨⟨_, hf⟩, by rw [hf]; rfl⟩
  · have hw : wrapInt64 (size + delta) = size + delta := by
      apply wrapInt64_of_isInt64
      unfold isInt64 at hs ⊢
      exact ⟨by linarith [hs.1], hsum⟩
    by_cases hmax : size + delta > md.MaxSize
    · have hf : IncreaseSize m md delta =
          .failed (.sizeIncreaseTooLarge (size + delta) md.MaxSize) := by
        simp [IncreaseSize, hd, hsize, hw, hmax]
      refine ⟨?_, ?_⟩
      · rw [hf]
        constructor
        · intro h; cases h
        · intro h; omega
      · intro _
        exact ⟨⟨_, hf⟩, by rw [hf]; rfl⟩
    · have hc : IncreaseSize m md delta =
          .called (.SetMachineDeploymentSize md (size + delta)) := by
        simp [IncreaseSize, hd, hsize, hw, hmax]
      refine ⟨?_, ?_⟩
      · rw [hc]
        simp only [true_iff]
        omega
      · intro h
        exact absurd ⟨by omega, by omega⟩ h

/-- Witness of the amended C8: target size 3 and delta 4 under maximum 10. -/
theorem IncreaseSize_spec_witness :
    (sampleManager 3 []).GetMachineDeploymentSize sampleDeployment = .ok 3 ∧ isInt64 3 ∧
      (3 : Int) + 4 < 2 ^ 63 ∧
      ((IncreaseSize (sampleManager 3 []) sampleDeployment 4 =
            .called (.SetMachineDeploymentSize sampleDeployment (3 + 4)) ↔
          (0 : Int) < 4 ∧ (3 : Int) + 4 ≤ sampleDeployment.MaxSize) ∧
        (¬ ((0 : Int) < 4 ∧ (3 : Int) + 4 ≤ sampleDeployment.MaxSize) →
          (∃ e, IncreaseSize (sampleManager 3 []) sampleDeployment 4 = .failed e) ∧
            (IncreaseSize (sampleManager 3 []) sampleDeployment 4).calls = [])) :=
  ⟨rfl, by decide, by decide,
    IncreaseSize_spec (sampleManager 3 []) sampleDeployment 3 4 rfl (by decide) (by decide)⟩

/-- C9, as stated, fails on the 64-bit sum: with target size -1, no existing
node and delta `-2^63`, the sum `s + delta` is below the number of nodes, yet
the wrapped sum is `2^63 - 1`, the check passes and
`SetMachineDeploymentSize` is called with `2^63 - 1`. -/
theorem DecreaseTargetSize_overflow :
    isInt64 (-1) ∧ isInt64 (-(2 ^ 63)) ∧
      (sampleManager (-1) []).GetMachineDeploymentSize sampleDeployment = .ok (-1) ∧
      (sampleManager (-1) []).GetMachineDeploymentNodes sampleDeployment = .ok [] ∧
      ((-(2 ^ 63) : Int) ≥ 0 ∨ (-1 : Int) + -(2 ^ 63) < (([] : List String).length : Int)) ∧
      DecreaseTargetSize (sampleManager (-1) []) sampleDeployment (-(2 ^ 63)) =
        .called (.SetMachineDeploymentSize sampleDeployment (2 ^ 63 - 1)) ∧
      (2 ^ 63 - 1 : Int) ≠ -1 + -(2 ^ 63) := by
  refine ⟨by decide, by decide, rfl, rfl, by decide, by decide, by decide⟩

/-- C9, amended. `DecreaseTargetSize` does not permit deleting an existing
node. For a machine deployment with target size `s` and `n` existing nodes,
both read successfully, and every delta such that `s + delta` is not below
the smallest 64-bit integer, `DecreaseTargetSize(delta)` requests the size
`s + delta` through `SetMachineDeploymentSize` exactly when `delta < 0` and
`s + delta >= n`, and it makes no other call; when `delta >= 0` or
`s + delta < n` it returns an error and makes no call. -/
theorem DecreaseTargetSize_spec (m : McmManager) (md : MachineDeployment)
    (size delta : Int) (nodes : List String)
    (hsize : m.GetMachineDeploymentSize md = .ok size)
    (hnodes : m.GetMachineDeploymentNodes md = .ok nodes)
    (hs : isInt64 size) (hsum : -(2 ^ 63) ≤ size + delta) :
    (DecreaseTargetSize m md delta = .called (.SetMachineDeploymentSize md (size + delta)) ↔
        delta < 0 ∧ size + delta ≥ (nodes.length : Int)) ∧
      (∀ c, DecreaseTargetSize m md delta = .called c →
        c = .SetMachineDeploymentSize md (size + delta)) ∧
      (delta ≥ 0 ∨ size + delta < (nodes.length : Int) →
        (∃ e, DecreaseTargetSize m md delta = .failed e) ∧
          (DecreaseTargetSize m md delta).calls = []) := by
  by_cases hdelta : delta ≥ 0
  · have hf : DecreaseTargetSize m md delta = .failed .sizeDecreaseMustBeNegative := by
      simp [DecreaseTargetSize, hdelta]
    refine ⟨?_, ?_, ?_⟩
    · rw [hf]
      constructor
      · intro h; cases h
      · intro h; omega
    · intro c h; rw [hf] at h; cases h
    · intro _
      exact ⟨⟨_, hf⟩, by rw [hf]; rfl⟩
  · have hw : wrapInt64 (size + delta) = size + delta := by
      apply wrapInt64_of_isInt64
      unfold isInt64 at hs ⊢
      exact ⟨hsum, by linarith [hs.2]⟩
    by_cases hlt : size + delta < (nodes.length : Int)
    · have hf : DecreaseTargetSize m md delta =
          .failed (.deleteExistingNodes size delta nodes) := by
        simp [DecreaseTargetSize, hdelta, hsize, hnodes, hw, hlt]
      refine ⟨?_, ?_, ?_⟩
      · rw [hf]
        constructor
        · intro h; cases h
        · intro h; omega
      · intro c h; rw [hf] at h; cases h
      · intro _
        exact ⟨⟨_, hf⟩, by rw [hf]; rfl⟩
    · have hc : DecreaseTargetSize m md delta =
          .called (.SetMachineDeploymentSize md (size + delta)) := by
        simp [DecreaseTargetSize, hdelta, hsize, hnodes, hw, hlt]
      refine ⟨?_, ?_, ?_⟩
      · rw [hc]
        simp only [true_iff]
        omega
      · intro c h
        rw [hc] at h
        cases h
        rfl
      · intro h
        rcases h with h | h
        · exact absurd h hdelta
        · exact absurd h hlt

/-- Witness of the amended C9: target size 5 with two existing nodes; delta
-3 is granted. -/
theorem DecreaseTargetSize_spec_witness :
    (sampleManager 5 ["n1", "n2"]).GetMachineDeploymentSize sampleDeployment = .ok 5 ∧
      (sampleManager 5 ["n1", "n2"]).GetMachineDeploymentNodes sampleDeployment =
        .ok ["n1", "n2"] ∧
      isInt64 5 ∧ (-(2 ^ 63) : Int) ≤ 5 + -3 ∧
      ((DecreaseTargetSize (sampleManager 5 ["n1", "n2"]) sampleDeployment (-3) =
            .called (.SetMachineDeploymentSize sampleDeployment (5 + -3)) ↔
          (-3 : Int) < 0 ∧ (5 : Int) + -3 ≥ ((["n1", "n2"] : List String).length : Int)) ∧
        (∀ c, DecreaseTargetSize (sampleManager 5 ["n1", "n2"]) sampleDeployment (-3) =
            .called c → c = .SetMachineDeploymentSize sampleDeployment (5 + -3)) ∧
        ((-3 : Int) ≥ 0 ∨ (5 : Int) + -3 < ((["n1", "n2"] : List String).length : Int) →
          (∃ e, DecreaseTargetSize (sampleManager 5 ["n1", "n2"]) sampleDeployment (-3) =
              .failed e) ∧
            (DecreaseTargetSize (sampleManager 5 ["n1", "n2"]) sampleDeployment (-3)).calls
              = [])) :=
  ⟨rfl, rfl, by decide, by decide,
    DecreaseTargetSize_spec (sampleManager 5 ["n1", "n2"]) sampleDeployment 5 (-3)
      ["n1", "n2"] rfl rfl (by decide) (by decide)⟩

/-! ## Deleting nodes -/

theorem Belongs_ok_ref (m : McmManager) (md : MachineDeployment) (node : Node) (b : Bool)
    (h : Belongs m md node = .ok b) :
    ∃ ref, ReferenceFromProviderID m node.ProviderID = .ok ref := by
  unfold Belongs at h
  cases href : ReferenceFromProviderID m node.ProviderID with
  | error e => rw [href] at h; cases h
  | ok ref => exact ⟨ref, rfl⟩

theorem Belongs_true_iff (m : McmManager) (md : MachineDeployment) (node : Node) :
    Belongs m md node = .ok true ↔
      ∃ ref target, ReferenceFromProviderID m node.ProviderID = .ok ref ∧
        m.GetMachineDeploymentForMachine ref = .ok (some target) ∧ target.Name = md.Name := by
  cases href : ReferenceFromProviderID m node.ProviderID with
  | error e =>
    constructor
    · intro h
      simp [Belongs, href] at h
    · rintro ⟨ref, target, h, _⟩
      cases h
  | ok ref =>
    cases hmd : m.GetMachineDeploymentForMachine ref with
    | error e =>
      constructor
      · intro h
        simp [Belongs, href, hmd] at h
      · rintro ⟨ref2, target, h, h2, _⟩
        cases h
        rw [hmd] at h2
        cases h2
    | ok owner =>
      cases owner with
      | none =>
        constructor
        · intro h
          simp [Belongs, href, hmd] at h
        · rintro ⟨ref2, target, h, h2, _⟩
          cases h
          rw [hmd] at h2
          cases h2
      | some target =>
        by_cases hid : target.Name = md.Name
        · constructor
          · intro _
            exact ⟨ref, target, rfl, hmd, hid⟩
          · intro _
            simp [Belongs, href, hmd, MachineDeployment.Id, hid]
        · constructor
          · intro h
            simp [Belongs, href, hmd, MachineDeployment.Id, hid] at h
          · rintro ⟨ref2, target2, h, h2, h3⟩
            cases h
            rw [hmd] at h2
            cases h2
            exact absurd h3 hid

theorem ReferenceFromProviderID_congr (m m2 : McmManager) (id : String)
    (h : m.listMachines = m2.listMachines) :
    ReferenceFromProviderID m id = ReferenceFromProviderID m2 id := by
  unfold ReferenceFromProviderID
  rw [h]

theorem deleteNodesLoop_ok (m : McmManager) (md : MachineDeployment) (nodes : List Node)
    (k : Nat) (acc : List (Option Ref))
    (h : ∀ i node, nodes[i]? = some node →
      Belongs (m.atListing (k + 2 * i)) md node = .ok true) :
    ∃ out, deleteNodesLoop m md nodes k acc = .ok (acc ++ out) ∧
      ∀ i node, nodes[i]? = some node → m.listing (k + 2 * i + 1) = m.listing (k + 2 * i) →
        ∃ ref, ReferenceFromProviderID (m.atListing (k + 2 * i)) node.ProviderID = .ok ref ∧
          out[i]? = some (some ref) := by
  induction nodes generalizing k acc with
  | nil =>
    refine ⟨[], by simp [deleteNodesLoop], ?_⟩
    intro i node hi
    simp at hi
  | cons node rest ih =>
    have hb : Belongs (m.atListing k) md node = .ok true := by
      have h0 := h 0 node (by simp)
      simpa using h0
    have hrest : ∀ i n, rest[i]? = some n →
        Belongs (m.atListing (k + 2 + 2 * i)) md n = .ok true := by
      intro i n hi
      have h1 := h (i + 1) n (by simpa using hi)
      have he : k + 2 * (i + 1) = k + 2 + 2 * i := by omega
      rw [he] at h1
      exact h1
    obtain ⟨out, hout, hall⟩ :=
      ih (k + 2)
        (acc ++ [(ReferenceFromProviderID (m.atListing (k + 1)) node.ProviderID).toOption]) hrest
    refine ⟨(ReferenceFromProviderID (m.atListing (k + 1)) node.ProviderID).toOption :: out,
      ?_, ?_⟩
    · simp [deleteNodesLoop, hb, hout]
    · intro i n hi hstable
      cases i with
      | zero =>
        have hn : node = n := by simpa using hi
        subst hn
        obtain ⟨ref, href⟩ := Belongs_ok_ref (m.atListing k) md node true hb
        have hsame : ReferenceFromProviderID (m.atListing (k + 1)) node.ProviderID =
            ReferenceFromProviderID (m.atListing k) node.ProviderID :=
          ReferenceFromProviderID_congr _ _ _ (by simpa [McmManager.atListing] using hstable)
        refine ⟨ref, by simpa using href, ?_⟩
        simp [hsame, href, Except.toOption]
      | succ j =>
        have he : k + 2 * (j + 1) = k + 2 + 2 * j := by omega
        rw [he] at hstable ⊢
        obtain ⟨ref, href, hget⟩ := hall j n (by simpa using hi) hstable
        exact ⟨ref, href, by simpa using hget⟩

theorem deleteNodesLoop_error (m : McmManager) (md : MachineDeployment) (nodes : List Node)
    (k : Nat) (acc : List (Option Ref))
    (h : ∃ i node, nodes[i]? = some node ∧
      Belongs (m.atListing (k + 2 * i)) md node ≠ .ok true) :
    ∃ e, deleteNodesLoop m md nodes k acc = .error e := by
  induction nodes generalizing k acc with
  | nil =>
    obtain ⟨i, node, hi, _⟩ := h
    simp at hi
  | cons node rest ih =>
    cases hb : Belongs (m.atListing k) md node with
    | error e => exact ⟨e, by simp [deleteNodesLoop, hb]⟩
    | ok b =>
      cases b with
      | false =>
        exact ⟨.differentMachineDeployment node.Name md.Id, by simp [deleteNodesLoop, hb]⟩
      | true =>
        have hrest : ∃ i n, rest[i]? = some n ∧
            Belongs (m.atListing (k + 2 + 2 * i)) md n ≠ .ok true := by
          obtain ⟨i, n, hi, hne⟩ := h
          cases i with
          | zero =>
            have hn : node = n := by simpa using hi
            subst hn
            exact absurd hb (by simpa using hne)
          | succ j =>
            have he : k + 2 * (j + 1) = k + 2 + 2 * j := by omega
            rw [he] at hne
            exact ⟨j, n, by simpa using hi, hne⟩
        obtain ⟨e, he⟩ :=
          ih (k + 2)
            (acc ++ [(ReferenceFromProviderID (m.atListing (k + 1)) node.ProviderID).toOption])
            hrest
        exact ⟨e, by simp [deleteNodesLoop, hb, he]⟩

theorem deleteNodesLoop_length (m : McmManager) (md : MachineDeployment) (nodes : List Node)
    (k : Nat) (acc machines : List (Option Ref))
    (h : deleteNodesLoop m md nodes k acc = .ok machines) :
    machines.length = acc.length + nodes.length := by
  induction nodes generalizing k acc with
  | nil =>
    simp only [deleteNodesLoop, Except.ok.injEq] at h
    simp [← h]
  | cons node rest ih =>
    cases hb : Belongs (m.atListing k) md node with
    | error e => simp [deleteNodesLoop, hb] at h
    | ok b =>
      cases b with
      | false => simp [deleteNodesLoop, hb] at h
      | true =>
        simp only [deleteNodesLoop, hb] at h
        have hrec := ih _ _ (by simpa using h)
        simp only [List.length_append, List.length_cons, List.length_nil] at hrec ⊢
        omega

/-- C10, as stated, fails twice. The machine of node "n1" is owned by the
deployment "md" of namespace "garden", which is not the deployment "md" of
namespace "shoot", yet `DeleteNodes` of the latter hands the machine to
`DeleteMachines`. And when the listing repeated after the membership check of
the first node fails, `DeleteMachines` receives a `nil` entry in place of the
machine reference of that node. -/
theorem DeleteNodes_other_owner_and_nil_entry :
    (otherNamespaceDeployment ≠ sampleDeployment ∧
      ReferenceFromProviderID (managerOf sampleMachines (some otherNamespaceDeployment))
        "aws:///eu-west-1/i-1" = .ok { Name := "m1", Namespace := "shoot" } ∧
      (managerOf sampleMachines (some otherNamespaceDeployment)).GetMachineDeploymentForMachine
        { Name := "m1", Namespace := "shoot" } = .ok (some otherNamespaceDeployment) ∧
      DeleteNodes (managerOf sampleMachines (some otherNamespaceDeployment)) sampleDeployment
          [{ Name := "n1", ProviderID := "aws:///eu-west-1/i-1" }] =
        .called (.DeleteMachines [some { Name := "m1", Namespace := "shoot" }])) ∧
    (flakyManager.listing 0 = .ok sampleMachines ∧ flakyManager.listing 1 = .error "timeout" ∧
      flakyManager.listing 2 = .ok sampleMachines ∧
      flakyManager.listing 3 = .ok sampleMachines ∧
      (∀ node ∈ sampleNodes, Belongs flakyManager sampleDeployment node = .ok true) ∧
      DeleteNodes flakyManager sampleDeployment sampleNodes =
        .called (.DeleteMachines [none, some { Name := "m1", Namespace := "shoot" }])) := by
  refine ⟨⟨by decide, by decide, rfl, by decide⟩, rfl, rfl, rfl, rfl, by decide, by decide⟩

/-- C10, amended. `DeleteNodes` is atomic in its checks. For a machine
deployment whose size `s` is read successfully, the listing number `2 * i` of
the run being the one of the membership check of node `i` and the listing
number `2 * i + 1` the one repeated after it: `DeleteMachines` is called
exactly when `s > MinSize()` and for every node of the list the machine is
found and the machine deployment that owns it has the name of this machine
deployment; it then receives one entry per node, in the order of the list,
and the entry of a node is the reference of its machine if the repeated
listing answers as the listing of the check did; if `s <= MinSize()`, or for
some node the machine is not found or its owner is not read, unknown or of
another name, `DeleteNodes` returns an error and makes no call. -/
theorem DeleteNodes_spec (m : McmManager) (md : MachineDeployment) (nodes : List Node)
    (size : Int) (hsize : m.GetMachineDeploymentSize md = .ok size) :
    ((∃ c, DeleteNodes m md nodes = .called c) ↔
        size > md.MinSize ∧ ∀ i node, nodes[i]? = some node → ∃ ref target,
          ReferenceFromProviderID (m.atListing (2 * i)) node.ProviderID = .ok ref ∧
            m.GetMachineDeploymentForMachine ref = .ok (some target) ∧
            target.Name = md.Name) ∧
      (∀ c, DeleteNodes m md nodes = .called c →
        ∃ machines, c = .DeleteMachines machines ∧ machines.length = nodes.length ∧
          ∀ i node, nodes[i]? = some node → m.listing (2 * i + 1) = m.listing (2 * i) →
            ∃ ref, ReferenceFromProviderID (m.atListing (2 * i)) node.ProviderID = .ok ref ∧
              machines[i]? = some (some ref)) ∧
      ((size ≤ md.MinSize ∨ ∃ i node, nodes[i]? = some node ∧ ¬ ∃ ref target,
          ReferenceFromProviderID (m.atListing (2 * i)) node.ProviderID = .ok ref ∧
            m.GetMachineDeploymentForMachine ref = .ok (some target) ∧
            target.Name = md.Name) →
        (∃ e, DeleteNodes m md nodes = .failed e) ∧ (DeleteNodes m md nodes).calls = []) := by
  have hiff : ∀ i node,
      (Belongs (m.atListing (0 + 2 * i)) md node = .ok true ↔ ∃ ref target,
        ReferenceFromProviderID (m.atListing (2 * i)) node.ProviderID = .ok ref ∧
          m.GetMachineDeploymentForMachine ref = .ok (some target) ∧
          target.Name = md.Name) := by
    intro i node
    rw [Nat.zero_add]
    exact Belongs_true_iff (m.atListing (2 * i)) md node
  have hfail : (size ≤ md.MinSize ∨ ∃ i node, nodes[i]? = some node ∧ ¬ ∃ ref target,
        ReferenceFromProviderID (m.atListing (2 * i)) node.ProviderID = .ok ref ∧
          m.GetMachineDeploymentForMachine ref = .ok (some target) ∧
          target.Name = md.Name) →
      ∃ e, DeleteNodes m md nodes = .failed e := by
    intro h
    by_cases hmin : size ≤ md.MinSize
    · exact ⟨.minSizeReached, by simp [DeleteNodes, hsize, hmin]⟩
    · rcases h with h | ⟨i, node, hi, hno⟩
      · exact absurd h hmin
      · obtain ⟨e, he⟩ := deleteNodesLoop_error m md nodes 0 []
          ⟨i, node, hi, fun hb => hno ((hiff i node).1 hb)⟩
        exact ⟨e, by simp [DeleteNodes, hsize, hmin, he]⟩
  have hok : (size > md.MinSize ∧ ∀ i node, nodes[i]? = some node → ∃ ref target,
        ReferenceFromProviderID (m.atListing (2 * i)) node.ProviderID = .ok ref ∧
          m.GetMachineDeploymentForMachine ref = .ok (some target) ∧
          target.Name = md.Name) →
      ∃ machines, DeleteNodes m md nodes = .called (.DeleteMachines machines) ∧
        machines.length = nodes.length ∧
        ∀ i node, nodes[i]? = some node → m.listing (2 * i + 1) = m.listing (2 * i) →
          ∃ ref, ReferenceFromProviderID (m.atListing (2 * i)) node.ProviderID = .ok ref ∧
            machines[i]? = some (some ref) := by
    rintro ⟨hgt, hall⟩
    obtain ⟨out, hout, hrefs⟩ := deleteNodesLoop_ok m md nodes 0 []
      (fun i node hi => (hiff i node).2 (hall i node hi))
    have hlen := deleteNodesLoop_length m md nodes 0 [] _ hout
    have hmin : ¬ size ≤ md.MinSize := by omega
    refine ⟨out, by simp [DeleteNodes, hsize, hmin, hout], by simpa using hlen, ?_⟩
    intro i node hi hstable
    have h := hrefs i node hi (by simpa using hstable)
    simpa using h
  have hcond : (∃ c, DeleteNodes m md nodes = .called c) →
      size > md.MinSize ∧ ∀ i node, nodes[i]? = some node → ∃ ref target,
        ReferenceFromProviderID (m.atListing (2 * i)) node.ProviderID = .ok ref ∧
          m.GetMachineDeploymentForMachine ref = .ok (some target) ∧
          target.Name = md.Name := by
    rintro ⟨c, hc⟩
    by_contra hcon
    have hor : size ≤ md.MinSize ∨ ∃ i node, nodes[i]? = some node ∧ ¬ ∃ ref target,
        ReferenceFromProviderID (m.atListing (2 * i)) node.ProviderID = .ok ref ∧
          m.GetMachineDeploymentForMachine ref = .ok (some target) ∧
          target.Name = md.Name := by
      by_cases hmin : size ≤ md.MinSize
      · exact Or.inl hmin
      · right
        by_contra hno
        push_neg at hno
        exact hcon ⟨by omega, fun i node hi => by
          obtain ⟨ref, target, h1, h2, h3⟩ := hno i node hi
          exact ⟨ref, target, h1, h2, h3⟩⟩
    obtain ⟨e, he⟩ := hfail hor
    rw [he] at hc
    cases hc
  refine ⟨⟨hcond, ?_⟩, ?_, ?_⟩
  · intro h
    obtain ⟨machines, hm, _⟩ := hok h
    exact ⟨_, hm⟩
  · intro c hc
    obtain ⟨machines, hm, hlen, hrefs⟩ := hok (hcond ⟨c, hc⟩)
    rw [hm] at hc
    cases hc
    exact ⟨machines, rfl, hlen, hrefs⟩
  · intro h
    obtain ⟨e, he⟩ := hfail h
    exact ⟨⟨e, he⟩, by rw [he]; rfl⟩

/-- Witness of the amended C10: the sample deployment at size 3 and the two
sample nodes; `DeleteMachines` receives the references of "m2" and "m1". -/
theorem DeleteNodes_spec_witness :
    (sampleManager 3 []).GetMachineDeploymentSize sampleDeployment = .ok 3 ∧
      DeleteNodes (sampleManager 3 []) sampleDeployment sampleNodes =
        .called (.DeleteMachines
          [some { Name := "m2", Namespace := "shoot" },
           some { Name := "m1", Namespace := "shoot" }]) ∧
      ∃ machines,
        Call.DeleteMachines
            [some { Name := "m2", Namespace := "shoot" },
             some { Name := "m1", Namespace := "shoot" }] = .DeleteMachines machines ∧
          machines.length = sampleNodes.length ∧
          ∀ i node, sampleNodes[i]? = some node →
            (sampleManager 3 []).listing (2 * i + 1) = (sampleManager 3 []).listing (2 * i) →
            ∃ ref,
              ReferenceFromProviderID ((sampleManager 3 []).atListing (2 * i))
                  node.ProviderID = .ok ref ∧
                machines[i]? = some (some ref) :=
  ⟨rfl, by decide,
    (DeleteNodes_spec (sampleManager 3 []) sampleDeployment sampleNodes 3 rfl).2.1 _
      (by decide)⟩

/-! ## Resolving a provider id -/

theorem findMachine_eq_find (id : String) (machines : List Machine) :
    findMachine id machines =
      match machines.find? (fun x => decide (lastSegment x.ProviderID = lastSegment id)) with
      | some machine => (machine.Name, machine.Namespace)
      | none => ("", "") := by
  induction machines with
  | nil => rfl
  | cons machine rest ih =>
    by_cases h : lastSegment machine.ProviderID = lastSegment id
    · simp [findMachine, List.find?, h]
    · simp [findMachine, List.find?, h, ih]

/-- C13, as stated, fails: in `namelessMachines` a machine whose provider id
ends in the segment "i-1" is listed (two are), yet the lookup of "i-1" returns
the error "could not find any machine", because the first of them has the
empty name. -/
theorem ReferenceFromProviderID_match_without_ref :
    (∃ machine ∈ namelessMachines, lastSegment machine.ProviderID = lastSegment "i-1") ∧
      (managerOf namelessMachines none).listMachines = .ok namelessMachines ∧
      ReferenceFromProviderID (managerOf namelessMachines none) "i-1" =
        .error (.machineNotFound "i-1") := by
  refine ⟨by decide, rfl, by decide⟩

/-- C13, amended. For every machine list (listed successfully) and provider
id, `ReferenceFromProviderID` succeeds if and only if some listed machine has
a ProviderID with the same last "/"-separated segment as the id and the
first such machine in list order has a non-empty name; it then returns the
Name and Namespace of that first machine; otherwise it returns the error
"could not find any machine" and no Ref. -/
theorem ReferenceFromProviderID_spec (m : McmManager) (machines : List Machine) (id : String)
    (hlist : m.listMachines = .ok machines) :
    (∀ ref, ReferenceFromProviderID m id = .ok ref ↔
        ∃ machine,
          machines.find? (fun x => decide (lastSegment x.ProviderID = lastSegment id)) =
            some machine ∧
          machine.Name ≠ "" ∧ ref = { Name := machine.Name, Namespace := machine.Namespace }) ∧
      ((∀ machine,
          machines.find? (fun x => decide (lastSegment x.ProviderID = lastSegment id)) =
            some machine → machine.Name = "") →
        ReferenceFromProviderID m id = .error (.machineNotFound id)) := by
  unfold ReferenceFromProviderID
  rw [hlist]
  simp only [findMachine_eq_find]
  cases hfind : machines.find? (fun x => decide (lastSegment x.ProviderID = lastSegment id)) with
  | none => simp
  | some machine =>
    by_cases hname : machine.Name = ""
    · simp [hname]
    · refine ⟨?_, ?_⟩
      · intro ref
        simp only [hname, if_false, Except.ok.injEq, Option.some.injEq, exists_eq_left',
          ne_eq, not_false_eq_true, true_and]
        exact eq_comm
      · intro h
        exact absurd (h machine rfl) hname

/-- Witness of the amended C13 at the two sample machines. -/
theorem ReferenceFromProviderID_spec_witness :
    (sampleManager 3 []).listMachines = .ok sampleMachines ∧
      ReferenceFromProviderID (sampleManager 3 []) "aws:///eu-west-1/i-2" =
        .ok { Name := "m2", Namespace := "shoot" } :=
  ⟨rfl, ((ReferenceFromProviderID_spec (sampleManager 3 []) sampleMachines
      "aws:///eu-west-1/i-2" rfl).1 { Name := "m2", Namespace := "shoot" }).2
    ⟨{ Name := "m2", Namespace := "shoot", ProviderID := "aws:///eu-west-1/i-2" },
      by decide, by decide, rfl⟩⟩

/-! ## Membership of a node -/

/-- C20, as stated, fails: the machine of the node is owned by the deployment
"md" of namespace "garden", which is not the deployment "md" of namespace
"shoot", yet `Belongs` of the latter answers true. -/
theorem Belongs_other_namespace :
    otherNamespaceDeployment ≠ sampleDeployment ∧
      otherNamespaceDeployment.Namespace ≠ sampleDeployment.Namespace ∧
      ReferenceFromProviderID (managerOf sampleMachines (some otherNamespaceDeployment))
        "aws:///eu-west-1/i-1" = .ok { Name := "m1", Namespace := "shoot" } ∧
      (managerOf sampleMachines (some otherNamespaceDeployment)).GetMachineDeploymentForMachine
        { Name := "m1", Namespace := "shoot" } = .ok (some otherNamespaceDeployment) ∧
      Belongs (managerOf sampleMachines (some otherNamespaceDeployment)) sampleDeployment
        { Name := "n1", ProviderID := "aws:///eu-west-1/i-1" } = .ok true := by
  refine ⟨by decide, by decide, by decide, rfl, by decide⟩

/-- C20, amended. For every machine deployment `d` and node whose machine
resolves, `Belongs(node)` returns (true, nil) exactly when the machine
deployment that owns the machine has the same `Id()`, that is the same name,
as `d`, returns (false, nil) when its name differs, returns an error when the
machine has no known machine deployment, and hands up the error of the
owner lookup. -/
theorem Belongs_spec (m : McmManager) (md : MachineDeployment) (node : Node) (ref : Ref)
    (href : ReferenceFromProviderID m node.ProviderID = .ok ref) :
    (∀ target, m.GetMachineDeploymentForMachine ref = .ok (some target) →
        (Belongs m md node = .ok true ↔ target.Name = md.Name) ∧
          (target.Name ≠ md.Name → Belongs m md node = .ok false)) ∧
      (m.GetMachineDeploymentForMachine ref = .ok none →
        Belongs m md node = .error (.unknownMachineDeployment node.Name)) ∧
      (∀ e, m.GetMachineDeploymentForMachine ref = .error e →
        Belongs m md node = .error e) := by
  refine ⟨?_, ?_, ?_⟩
  · intro target htarget
    by_cases hid : target.Name = md.Name
    · simp [Belongs, href, htarget, MachineDeployment.Id, hid]
    · simp [Belongs, href, htarget, MachineDeployment.Id, hid]
  · intro hnone
    simp [Belongs, href, hnone]
  · intro e he
    simp [Belongs, href, he]

/-- Witness of the amended C20: the node of machine "m1" and the sample
deployment. -/
theorem Belongs_spec_witness :
    ReferenceFromProviderID (sampleManager 3 []) "aws:///eu-west-1/i-1" =
        .ok { Name := "m1", Namespace := "shoot" } ∧
      (sampleManager 3 []).GetMachineDeploymentForMachine { Name := "m1", Namespace := "shoot" } =
        .ok (some sampleDeployment) ∧
      (Belongs (sampleManager 3 []) sampleDeployment
          { Name := "n1", ProviderID := "aws:///eu-west-1/i-1" } = .ok true ↔
        sampleDeployment.Name = sampleDeployment.Name) :=
  ⟨by decide, rfl,
    ((Belongs_spec (sampleManager 3 []) sampleDeployment
      { Name := "n1", ProviderID := "aws:///eu-west-1/i-1" } { Name := "m1", Namespace := "shoot" }
      (by decide)).1 sampleDeployment rfl).1⟩

/-! ## Splitting a name at the dots -/

theorem splitChars_of_not_mem (sep : Char) (a : List Char) (h : sep ∉ a) :
    splitChars sep a = [a] := by
  induction a with
  | nil => rfl
  | cons c cs ih =>
    have hc : c ≠ sep := fun hcs => h (by simp [hcs])
    have hcs : sep ∉ cs := fun hm => h (List.mem_cons_of_mem _ hm)
    simp [splitChars, hc, ih hcs]

theorem splitChars_append_sep (sep : Char) (a b : List Char) (h : sep ∉ a) :
    splitChars sep (a ++ sep :: b) = a :: splitChars sep b := by
  induction a with
  | nil => simp [splitChars]
  | cons c cs ih =>
    have hc : c ≠ sep := fun hcs => h (by simp [hcs])
    have hcs : sep ∉ cs := fun hm => h (List.mem_cons_of_mem _ hm)
    simp [splitChars, hc, ih hcs]

theorem splitDot_qualified (ns name : String) (hns : '.' ∉ ns.data) (hname : '.' ∉ name.data) :
    splitDot (ns ++ "." ++ name) = [ns, name] := by
  have hdata : (ns ++ "." ++ name).data = ns.data ++ '.' :: name.data := by
    simp [String.data_append]
  simp [splitDot, hdata, splitChars_append_sep _ _ _ hns, splitChars_of_not_mem _ _ hname]

theorem splitDot_head (ns name : String) (hns : '.' ∉ ns.data) :
    ∃ seg segs, splitDot (ns ++ "." ++ name) = ns :: seg :: segs := by
  have hdata : (ns ++ "." ++ name).data = ns.data ++ '.' :: name.data := by
    simp [String.data_append]
  have hne : ∃ x xs, splitChars '.' name.data = x :: xs := by
    cases hn : name.data with
    | nil => exact ⟨[], [], rfl⟩
    | cons c cs =>
      simp only [splitChars]
      split
      · exact ⟨_, _, rfl⟩
      · split <;> exact ⟨_, _, rfl⟩
  obtain ⟨x, xs, hx⟩ := hne
  exact ⟨String.mk x, xs.map String.mk, by
    simp [splitDot, hdata, splitChars_append_sep _ _ _ hns, hx]⟩

/-! ## Building the node groups -/

theorem buildMachineDeploymentFromSpec_of_shape (parse : SpecParser) (value : String)
    (g : GroupShape) (hform : hasShape parse value g)
    (hns : '.' ∉ g.ns.data) (hname : '.' ∉ g.name.data) :
    buildMachineDeploymentFromSpec parse value = .ok (.ok (shapeDeployment g)) := by
  unfold hasShape at hform
  simp [buildMachineDeploymentFromSpec, hform, splitDot_qualified _ _ hns hname,
    shapeDeployment]

theorem addNodeGroups_of_shapes {ρ : Type} (parse : SpecParser) (specs : List String)
    (shapes : List GroupShape) (hform : List.Forall₂ (hasShape parse) specs shapes)
    (hdot : ∀ g ∈ shapes, '.' ∉ g.ns.data ∧ '.' ∉ g.name.data)
    (mcm : mcmCloudProvider ρ) (more : List String) :
    addNodeGroups parse mcm (specs ++ more) =
      addNodeGroups parse
        { mcm with machinedeployments := mcm.machinedeployments ++ shapes.map shapeDeployment }
        more := by
  induction specs generalizing shapes mcm with
  | nil =>
    cases hform
    simp
  | cons value rest ih =>
    cases hform with
    | cons hhead htail =>
      rename_i g gs
      have hg := hdot g (List.mem_cons_self _ _)
      have hb := buildMachineDeploymentFromSpec_of_shape parse value g hhead hg.1 hg.2
      simp only [List.cons_append, addNodeGroups, mcmCloudProvider.addNodeGroup, hb]
      have hrec := ih gs htail (fun x hx => hdot x (List.mem_cons_of_mem _ hx))
        (mcm.addMachineDeployment (shapeDeployment g))
      simp only [List.append_eq] at hrec ⊢
      rw [hrec]
      simp [mcmCloudProvider.addMachineDeployment]

theorem foldl_append_singleton {α : Type} (l acc : List α) :
    l.foldl (fun result x => result ++ [x]) acc = acc ++ l := by
  induction l generalizing acc with
  | nil => simp
  | cons x xs ih => simp [ih]

theorem NodeGroups_eq {ρ : Type} (mcm : mcmCloudProvider ρ) :
    mcm.NodeGroups = mcm.machinedeployments := by
  simp [mcmCloudProvider.NodeGroups, foldl_append_singleton]

theorem forall₂_shapeDeployment (shapes : List GroupShape) :
    List.Forall₂ matchesShape (shapes.map shapeDeployment) shapes := by
  induction shapes with
  | nil => exact List.Forall₂.nil
  | cons g gs ih =>
    refine List.Forall₂.cons ?_ ih
    simp [matchesShape, shapeDeployment, buildMachineDeployment, MachineDeployment.MinSize,
      MachineDeployment.MaxSize, MachineDeployment.Id]

/-- C14, as stated, fails. The spec "1:3:shoot.worker.v2" is of the form
minNodes:maxNodes:namespace.machineDeploymentName with the name "worker.v2",
yet the node group built has the `Id()` "worker"; and in the list
["1:3:md", "bogus"] the second spec fails to parse, yet no error is returned:
the name "md" of the first has no ".", and the call panics on `s[1]`. -/
theorem buildStaticallyDiscoveringProvider_not_by_form :
    (hasShape sampleSpecFromString "1:3:shoot.worker.v2"
        { minNodes := 1, maxNodes := 3, ns := "shoot", name := "worker.v2" } ∧
      (buildStaticallyDiscoveringProvider sampleSpecFromString (sampleManager 3 [])
          ["1:3:shoot.worker.v2"] ()).map
        (fun r => r.map fun mcm => mcm.NodeGroups.map fun md => md.Id) = .ok (.ok ["worker"])) ∧
    (sampleSpecFromString "bogus" true = .error "wrong nodes configuration" ∧
      (buildStaticallyDiscoveringProvider sampleSpecFromString (sampleManager 3 [])
          ["1:3:md", "bogus"] ()).map
        (fun r => r.map fun mcm => mcm.NodeGroups) = .error .indexOutOfRange) := by
  refine ⟨⟨?_, by decide⟩, by decide, by decide⟩
  unfold hasShape
  decide

/-- C14, amended. Let every spec of the list be of the form
minNodes:maxNodes:namespace.machineDeploymentName, read so by
`SpecFromString`, with no "." inside the namespace or inside the machine
deployment name. Then `buildStaticallyDiscoveringProvider` returns a provider
whose `NodeGroups()` has one entry per spec, in spec order, the i-th with
`MinSize()`, `MaxSize()`, `Namespace` and `Id()` of the i-th spec; and if such
a list is followed by a spec that `SpecFromString` rejects, an error and no
provider is returned. -/
theorem buildStaticallyDiscoveringProvider_spec {ρ : Type} (parse : SpecParser)
    (mcmManager : McmManager) (resourceLimiter : ρ) (specs : List String)
    (shapes : List GroupShape) (hform : List.Forall₂ (hasShape parse) specs shapes)
    (hdot : ∀ g ∈ shapes, '.' ∉ g.ns.data ∧ '.' ∉ g.name.data) :
    (∃ mcm, buildStaticallyDiscoveringProvider parse mcmManager specs resourceLimiter =
        .ok (.ok mcm) ∧
        List.Forall₂ matchesShape mcm.NodeGroups shapes) ∧
      (∀ bad rest e, parse bad true = .error e →
        buildStaticallyDiscoveringProvider parse mcmManager (specs ++ bad :: rest)
          resourceLimiter = .ok (.error (.failedToParseNodeGroupSpec e))) := by
  refine ⟨?_, ?_⟩
  · refine ⟨mcmCloudProvider.mk mcmManager (shapes.map shapeDeployment) resourceLimiter,
      ?_, ?_⟩
    · have h := addNodeGroups_of_shapes parse specs shapes hform hdot
        { mcmManager := mcmManager, machinedeployments := [],
          resourceLimiter := resourceLimiter } []
      simp only [List.append_nil, List.nil_append] at h
      simp only [buildStaticallyDiscoveringProvider, h, addNodeGroups]
    · rw [NodeGroups_eq]
      exact forall₂_shapeDeployment shapes
  · intro bad rest e hbad
    have h := addNodeGroups_of_shapes parse specs shapes hform hdot
      { mcmManager := mcmManager, machinedeployments := [],
        resourceLimiter := resourceLimiter } (bad :: rest)
    simp only [buildStaticallyDiscoveringProvider, h, addNodeGroups,
      mcmCloudProvider.addNodeGroup, buildMachineDeploymentFromSpec, hbad]

/-- Witness of the amended C14: two specs of two namespaces. -/
theorem buildStaticallyDiscoveringProvider_spec_witness :
    (∃ mcm, buildStaticallyDiscoveringProvider sampleSpecFromString (sampleManager 3 [])
        ["1:10:shoot.md", "0:3:garden.pool"] () = .ok (.ok mcm) ∧
        List.Forall₂ matchesShape mcm.NodeGroups
          [{ minNodes := 1, maxNodes := 10, ns := "shoot", name := "md" },
           { minNodes := 0, maxNodes := 3, ns := "garden", name := "pool" }]) ∧
      (∀ bad rest e, sampleSpecFromString bad true = .error e →
        buildStaticallyDiscoveringProvider sampleSpecFromString (sampleManager 3 [])
          (["1:10:shoot.md", "0:3:garden.pool"] ++ bad :: rest) () =
            .ok (.error (.failedToParseNodeGroupSpec e))) :=
  buildStaticallyDiscoveringProvider_spec sampleSpecFromString (sampleManager 3 []) ()
    ["1:10:shoot.md", "0:3:garden.pool"]
    [{ minNodes := 1, maxNodes := 10, ns := "shoot", name := "md" },
     { minNodes := 0, maxNodes := 3, ns := "garden", name := "pool" }]
    (List.Forall₂.cons (by unfold hasShape; decide)
      (List.Forall₂.cons (by unfold hasShape; decide) List.Forall₂.nil))
    (by decide)

end Mcm

namespace Validation

/-! ## The machine class validation -/

theorem validateAWSMachineClassSpec_nil (spec : AWSMachineClassSpec) (fldPath : Path)
    (h : spec.SecretRef = none) :
    validateAWSMachineClassSpec spec fldPath = .error .nilPointerDereference := by
  simp [validateAWSMachineClassSpec, validateSecretRef, h]

theorem validateAWSMachineClassSpec_some (spec : AWSMachineClassSpec) (fldPath : Path)
    (ref : SecretReference) (h : spec.SecretRef = some ref) :
    ∃ secretErrs, validateSecretRef spec.SecretRef (NewPath "spec.secretRef") = .ok secretErrs ∧
      validateAWSMachineClassSpec spec fldPath =
        .ok (requiredFieldChecks spec fldPath ++
          validateBlockDevices spec.BlockDevices (NewPath "spec.blockDevices") ++
          validateNetworkInterfaces spec.NetworkInterfaces (NewPath "spec.networkInterfaces") ++
          secretErrs ++ validateAWSClassSpecTags spec.Tags (NewPath "spec.tags")) := by
  simp [validateAWSMachineClassSpec, validateSecretRef, h]

/-- The machine class validation returns an error list exactly when the
secret reference is present. -/
theorem ValidateAWSMachineClass_returns_iff (ValidateObjectMeta : ObjectMetaValidator)
    (mc : AWSMachineClass) :
    (∃ errs, ValidateAWSMachineClass ValidateObjectMeta mc = .ok errs) ↔
      mc.Spec.SecretRef ≠ none := by
  cases href : mc.Spec.SecretRef with
  | none =>
    simp [ValidateAWSMachineClass, internalValidateAWSMachineClass,
      validateAWSMachineClassSpec_nil mc.Spec _ href]
  | some ref =>
    obtain ⟨secretErrs, _, hspec⟩ := validateAWSMachineClassSpec_some mc.Spec (NewPath "spec") ref href
    simp [ValidateAWSMachineClass, internalValidateAWSMachineClass, hspec]

/-- C11, at the failing input. For the machine class `blankMachineClass`,
whose spec has no secret reference, no block device, no network interface and
no tag, `ValidateAWSMachineClass` does not return an error list: it ends in a
nil pointer dereference, whatever the metadata validation returns. -/
theorem ValidateAWSMachineClass_nil_secretRef (ValidateObjectMeta : ObjectMetaValidator) :
    blankMachineClass.Spec.SecretRef = none ∧ blankMachineClass.Spec.BlockDevices = [] ∧
      blankMachineClass.Spec.NetworkInterfaces = [] ∧ blankMachineClass.Spec.Tags = [] ∧
      ValidateAWSMachineClass ValidateObjectMeta blankMachineClass =
        .error .nilPointerDereference := by
  refine ⟨rfl, rfl, rfl, rfl, ?_⟩
  simp [ValidateAWSMachineClass, internalValidateAWSMachineClass,
    validateAWSMachineClassSpec_nil blankMachineClass.Spec _ rfl]

/-- The five required-field checks report one Required error for each empty
string among ami, region, machineType, iam.name and keyName, in that order,
and none for a string that is not empty. -/
theorem requiredFieldChecks_eq (spec : AWSMachineClassSpec) (fldPath : Path) :
    requiredFieldChecks spec fldPath =
      ((requiredStrings spec).filter fun t => decide (t.2.2 = "")).map
        fun t => Required (Child fldPath t.1) t.2.1 := by
  have flip : ∀ x : String, ("" = x) = (x = "") := fun x => propext eq_comm
  unfold requiredFieldChecks requiredStrings
  simp only [flip]
  by_cases h1 : spec.AMI = "" <;> by_cases h2 : spec.Region = "" <;>
    by_cases h3 : spec.MachineType = "" <;> by_cases h4 : spec.IAM.Name = "" <;>
    by_cases h5 : spec.KeyName = "" <;>
    simp [List.filter, h1, h2, h3, h4, h5]

/-- With a secret reference present, `validateAWSMachineClassSpec` returns the
errors of the five required-field checks, as many as there are empty strings
among the five, followed by the block-device, network-interface, secretRef
and tag errors. -/
theorem validateAWSMachineClassSpec_required_first (spec : AWSMachineClassSpec)
    (fldPath : Path) (ref : SecretReference) (h : spec.SecretRef = some ref) :
    ∃ rest, validateAWSMachineClassSpec spec fldPath =
        .ok (((requiredStrings spec).filter fun t => decide (t.2.2 = "")).map
          (fun t => Required (Child fldPath t.1) t.2.1) ++ rest) ∧
      rest = validateBlockDevices spec.BlockDevices (NewPath "spec.blockDevices") ++
        validateNetworkInterfaces spec.NetworkInterfaces (NewPath "spec.networkInterfaces") ++
        (if ref.Name = "" then [Required ["spec.secretRef", "name"] "name is required"]
          else []) ++
        (if ref.Namespace = "" then
          [Required ["spec.secretRef", "namespace"] "namespace is required"] else []) ++
        validateAWSClassSpecTags spec.Tags (NewPath "spec.tags") := by
  refine ⟨_, ?_, rfl⟩
  rw [← requiredFieldChecks_eq]
  by_cases hn : ref.Name = "" <;> by_cases hs : ref.Namespace = "" <;>
    simp [validateAWSMachineClassSpec, validateSecretRef, h, hn, hs, NewPath, Child]

/-- C12, at the failing input. For the spec `blankSpec none`, whose five
required strings are all empty and whose secret reference is nil,
`validateAWSMachineClassSpec` reports no error at all: it ends in the nil
pointer dereference of `validateSecretRef`. -/
theorem validateAWSMachineClassSpec_blank_nil (fldPath : Path) :
    ((requiredStrings (blankSpec none)).filter fun t => decide (t.2.2 = "")).length = 5 ∧
      (blankSpec none).SecretRef = none ∧
      validateAWSMachineClassSpec (blankSpec none) fldPath = .error .nilPointerDereference := by
  refine ⟨by decide, rfl, validateAWSMachineClassSpec_nil _ _ rfl⟩

end Validation

namespace Drain

/-! ## Skipped pods -/

theorem Evaluate_of_skip (flags : PolicyFlags) (now : Int) (lookup : Lookup)
    (budgets : List PodDisruptionBudget) (p : Pod)
    (hc : classify flags now lookup budgets p = .skip) :
    (∀ pods, p ∉ (Evaluate flags now lookup budgets pods).1) ∧
      (∀ l₁ l₂, Evaluate flags now lookup budgets (l₁ ++ p :: l₂) =
        Evaluate flags now lookup budgets (l₁ ++ l₂)) := by
  refine ⟨?_, ?_⟩
  · intro pods hmem
    have := (Evaluate_mem_evictable flags now lookup budgets pods p hmem).2
    rw [hc] at this
    cases this
  · intro l₁ l₂
    simp only [Evaluate, firstBlocking_append_skip _ p hc, collectEvictable_append_skip _ p hc]

/-- A pod without safe-to-evict annotation that carries a deletion timestamp
older than the grace period relative to the injected time is classified
Skip: it is in no list `Evaluate` returns, and `Evaluate` returns the same
pods and the same error with the pod in the list as without it. -/
theorem terminating_pod_skipped (flags : PolicyFlags) (now : Int) (lookup : Lookup)
    (budgets : List PodDisruptionBudget) (p : Pod) (t : Int)
    (hdel : p.DeletionTimestamp = some t)
    (hold : t + flags.terminationGracePeriodSeconds < now)
    (hann : p.SafeToEvict = .absent) :
    classify flags now lookup budgets p = .skip ∧
      (∀ pods, p ∉ (Evaluate flags now lookup budgets pods).1) ∧
      (∀ l₁ l₂, Evaluate flags now lookup budgets (l₁ ++ p :: l₂) =
        Evaluate flags now lookup budgets (l₁ ++ l₂)) := by
  have hterm : terminating flags now p = true := by
    simp [terminating, hdel, hold]
  have hc : classify flags now lookup budgets p = .skip := by
    by_cases hds : controllerKind p = .ofKind .daemonSet
    · simp [classify, hann, hds]
    · simp [classify, hann, hds, hterm]
  exact ⟨hc, Evaluate_of_skip flags now lookup budgets p hc⟩

/-- C16. A pod whose phase is succeeded or failed and that no earlier rule
decides (no safe-to-evict annotation, not daemonset-managed, not terminating
beyond the grace period) is classified Evictable, whatever its restart
policy, owner references, storage, the controllers and the budgets;
`Evaluate` on the single-pod list returns no error and exactly that pod. -/
theorem terminal_pod_evictable (flags : PolicyFlags) (now : Int) (lookup : Lookup)
    (budgets : List PodDisruptionBudget) (p : Pod)
    (hphase : p.Phase = .succeeded ∨ p.Phase = .failed)
    (hann : p.SafeToEvict = .absent)
    (hds : controllerKind p ≠ .ofKind .daemonSet)
    (hterm : terminating flags now p = false) :
    classify flags now lookup budgets p = .evictable ∧
      Evaluate flags now lookup budgets [p] = ([p], none) := by
  have hterminal : terminal p = true := by
    rcases hphase with h | h <;> simp [terminal, h]
  have hc : classify flags now lookup budgets p = .evictable := by
    simp [classify, hann, hds, hterm, hterminal]
  exact ⟨hc, by rw [Evaluate_singleton, hc]⟩

/-- Witness of C16 at `terminalPod` (succeeded, restart on failure),
`failedPod` (failed, never restarted) and `evictedPod` (failed, always
restarted) of the test, none of which has an owner reference. -/
theorem terminal_pod_evictable_witness :
    (terminalPod.RestartPolicy = .onFailure ∧ terminalPod.OwnerReferences = [] ∧
      Evaluate testFlags 0 testCluster [] [terminalPod] = ([terminalPod], none)) ∧
    (failedPod.RestartPolicy = .never ∧ failedPod.OwnerReferences = [] ∧
      Evaluate testFlags 0 testCluster [] [failedPod] = ([failedPod], none)) ∧
    (evictedPod.RestartPolicy = .always ∧ evictedPod.OwnerReferences = [] ∧
      Evaluate testFlags 0 testCluster [] [evictedPod] = ([evictedPod], none)) :=
  ⟨⟨by decide, by decide,
      (terminal_pod_evictable testFlags 0 testCluster [] terminalPod (by decide) (by decide)
        (by decide) (by decide)).2⟩,
    ⟨by decide, by decide,
      (terminal_pod_evictable testFlags 0 testCluster [] failedPod (by decide) (by decide)
        (by decide) (by decide)).2⟩,
    ⟨by decide, by decide,
      (terminal_pod_evictable testFlags 0 testCluster [] evictedPod (by decide) (by decide)
        (by decide) (by decide)).2⟩⟩

/-- C18. A pod whose first owner reference has the kind ReplicationController,
ReplicaSet, Job or StatefulSet and that rules 1 to 7 do not decide (no
annotation, not terminating, no terminal phase, no local storage) is
classified Blocking with the reason controller-not-found when the point
lookup by the pod's namespace and the referenced name reports that the
controller does not exist; `Evaluate` on any pod list that contains it
returns an error and no pods. -/
theorem missing_controller_blocks (flags : PolicyFlags) (now : Int) (lookup : Lookup)
    (budgets : List PodDisruptionBudget) (p : Pod) (pods : List Pod)
    (ref : OwnerReference) (others : List OwnerReference)
    (hown : p.OwnerReferences = ref :: others)
    (hkind : ref.Kind = .replicationController ∨ ref.Kind = .replicaSet ∨ ref.Kind = .job ∨
      ref.Kind = .statefulSet)
    (hann : p.SafeToEvict = .absent) (hterm : terminating flags now p = false)
    (hphase : terminal p = false) (hloc : HasLocalStorage p = false)
    (hlookup : lookup ref.Kind p.Namespace ref.Name = .notFound) (hp : p ∈ pods) :
    classify flags now lookup budgets p = .blocking (.policy .controllerNotFound) ∧
      (∃ e, Evaluate flags now lookup budgets pods = ([], some e)) ∧
      Evaluate flags now lookup budgets [p] =
        ([], some (.policyBlocked p.Namespace p.Name .controllerNotFound)) := by
  have hds : controllerKind p ≠ .ofKind .daemonSet := by
    simp only [controllerKind, hown, ne_eq, ResolvedKind.ofKind.injEq]
    rcases hkind with h | h | h | h <;> simp [h]
  have hc : classify flags now lookup budgets p = .blocking (.policy .controllerNotFound) := by
    simp [classify, hann, hds, hterm, hphase, hloc, ownerRule, Resolve, hown, hlookup]
  refine ⟨hc, Evaluate_of_blocking flags now lookup budgets pods p _ hp hc, ?_⟩
  rw [Evaluate_singleton, hc]
  rfl

/-- Witness of C18 at `kubeSystemRcPod` in a cluster whose only replication
controller "rc" is the one of the namespace "default". -/
theorem missing_controller_blocks_witness :
    kubeSystemRcPod.OwnerReferences = [{ Kind := .replicationController, Name := "rc" }] ∧
      testCluster .replicationController "kube-system" "rc" = .notFound ∧
      (classify testFlags 0 testCluster [] kubeSystemRcPod =
          .blocking (.policy .controllerNotFound) ∧
        (∃ e, Evaluate testFlags 0 testCluster [] [rcPod, kubeSystemRcPod] = ([], some e)) ∧
        Evaluate testFlags 0 testCluster [] [kubeSystemRcPod] =
          ([], some (.policyBlocked kubeSystemRcPod.Namespace kubeSystemRcPod.Name
            .controllerNotFound))) :=
  ⟨by decide, by decide,
    missing_controller_blocks testFlags 0 testCluster [] kubeSystemRcPod
      [rcPod, kubeSystemRcPod] { Kind := .replicationController, Name := "rc" } []
      (by decide) (by decide) (by decide) (by decide) (by decide) (by decide) (by decide)
      (by decide)⟩

/-! ## Order of the pods -/

theorem Evaluate_error_iff (flags : PolicyFlags) (now : Int) (lookup : Lookup)
    (budgets : List PodDisruptionBudget) (pods : List Pod) :
    (Evaluate flags now lookup budgets pods).2 ≠ none ↔
      ∃ p ∈ pods, ∃ c, classify flags now lookup budgets p = .blocking c := by
  by_cases h : ∀ q ∈ pods, ∀ c, classify flags now lookup budgets q ≠ .blocking c
  · rw [Evaluate_of_no_blocking flags now lookup budgets pods h]
    simp only [ne_eq, not_true_eq_false, false_iff]
    rintro ⟨p, hp, c, hc⟩
    exact h p hp c hc
  · push_neg at h
    obtain ⟨q, hq, c, hc⟩ := h
    obtain ⟨e, he⟩ := Evaluate_of_blocking flags now lookup budgets pods q c hq hc
    rw [he]
    simp only [ne_eq, reduceCtorEq, not_false_eq_true, true_iff]
    exact ⟨q, hq, c, hc⟩

theorem Evaluate_fst_of_ok (flags : PolicyFlags) (now : Int) (lookup : Lookup)
    (budgets : List PodDisruptionBudget) (pods : List Pod)
    (hok : (Evaluate flags now lookup budgets pods).2 = none) :
    (Evaluate flags now lookup budgets pods).1 =
      pods.filter fun p => decide (classify flags now lookup budgets p = .evictable) := by
  have h : ∀ q ∈ pods, ∀ c, classify flags now lookup budgets q ≠ .blocking c := by
    intro q hq c hc
    exact (Evaluate_error_iff flags now lookup budgets pods).2 ⟨q, hq, c, hc⟩ hok
  rw [Evaluate_of_no_blocking flags now lookup budgets pods h]

/-- C19. The node decision does not depend on the order of the pods. For a
pod list and a permutation of it, under the same policy, time, controller
lookup and budgets, `Evaluate` returns an error on the one exactly when it
returns an error on the other, and when both succeed the two returned lists
hold the same pods, each as often in the one as in the other. -/
theorem Evaluate_perm (flags : PolicyFlags) (now : Int) (lookup : Lookup)
    (budgets : List PodDisruptionBudget) (l₁ l₂ : List Pod) (h : l₁.Perm l₂) :
    ((Evaluate flags now lookup budgets l₁).2 ≠ none ↔
        (Evaluate flags now lookup budgets l₂).2 ≠ none) ∧
      ((Evaluate flags now lookup budgets l₁).2 = none →
        (Evaluate flags now lookup budgets l₂).2 = none →
        (Evaluate flags now lookup budgets l₁).1.Perm (Evaluate flags now lookup budgets l₂).1) := by
  refine ⟨?_, ?_⟩
  · rw [Evaluate_error_iff, Evaluate_error_iff]
    constructor
    · rintro ⟨p, hp, c, hc⟩
      exact ⟨p, h.mem_iff.1 hp, c, hc⟩
    · rintro ⟨p, hp, c, hc⟩
      exact ⟨p, h.mem_iff.2 hp, c, hc⟩
  · intro h₁ h₂
    rw [Evaluate_fst_of_ok flags now lookup budgets l₁ h₁,
      Evaluate_fst_of_ok flags now lookup budgets l₂ h₂]
    exact h.filter _

/-- Witness of C19: the pods `rcPod`, `dsPod` and `jobPod` of the test in two
orders. -/
theorem Evaluate_perm_witness :
    [rcPod, dsPod, jobPod].Perm [jobPod, rcPod, dsPod] ∧
      Evaluate testFlags 0 testCluster [] [rcPod, dsPod, jobPod] = ([rcPod, jobPod], none) ∧
      Evaluate testFlags 0 testCluster [] [jobPod, rcPod, dsPod] = ([jobPod, rcPod], none) ∧
      (((Evaluate testFlags 0 testCluster [] [rcPod, dsPod, jobPod]).2 ≠ none ↔
          (Evaluate testFlags 0 testCluster [] [jobPod, rcPod, dsPod]).2 ≠ none) ∧
        ((Evaluate testFlags 0 testCluster [] [rcPod, dsPod, jobPod]).2 = none →
          (Evaluate testFlags 0 testCluster [] [jobPod, rcPod, dsPod]).2 = none →
          (Evaluate testFlags 0 testCluster [] [rcPod, dsPod, jobPod]).1.Perm
            (Evaluate testFlags 0 testCluster [] [jobPod, rcPod, dsPod]).1)) :=
  ⟨by decide, by decide, by decide,
    Evaluate_perm testFlags 0 testCluster [] [rcPod, dsPod, jobPod] [jobPod, rcPod, dsPod]
      (by decide)⟩

/-! ## Budgets of other namespaces -/

theorem budgetRule_of_matched (p : Pod) (budgets : List PodDisruptionBudget)
    (h : ∃ b ∈ budgets, b.Namespace = p.Namespace ∧ selects b p = true) :
    budgetRule budgets p = .evictable := by
  obtain ⟨b, hb, hns, hsel⟩ := h
  have hmem : b ∈ budgetIndex budgets p.Namespace := by
    simp [budgetIndex, List.mem_filter, hb, hns]
  have hcov : CoveredBy p budgets = (true, true) := by
    unfold CoveredBy
    cases hidx : budgetIndex budgets p.Namespace with
    | nil => rw [hidx] at hmem; cases hmem
    | cons c cs =>
      rw [hidx] at hmem
      have hany : (c :: cs).any (fun x => selects x p) = true := by
        rw [List.any_eq_true]
        exact ⟨b, hmem, hsel⟩
      simp only [hany]
      rfl
  simp [budgetRule, hcov]

theorem classify_blocking_of_budgetRule (flags : PolicyFlags) (now : Int) (lookup : Lookup)
    (budgets : List PodDisruptionBudget) (p : Pod) (cause : BlockCause)
    (hb : budgetRule budgets p = .blocking cause)
    (hsafe : p.SafeToEvict ≠ .explicitTrue)
    (hds : controllerKind p ≠ .ofKind .daemonSet)
    (hterm : terminating flags now p = false) (hphase : terminal p = false) :
    ∃ c, classify flags now lookup budgets p = .blocking c := by
  have hown : ∃ c, ownerRule flags lookup budgets p = .blocking c := by
    unfold ownerRule Resolve
    cases hrefs : p.OwnerReferences with
    | nil =>
      cases hf : flags.allowUnreplicatedEviction <;> simp [hf, hb]
    | cons ref rest =>
      cases hl : lookup ref.Kind p.Namespace ref.Name <;> simp [hl, hb]
  unfold classify
  by_cases h1 : p.SafeToEvict = .explicitFalse
  · exact ⟨.policy .unsafeAnnotated, by simp [h1]⟩
  · by_cases hl : (HasLocalStorage p && !flags.allowLocalStorageEviction) = true
    · exact ⟨.policy .localStorage, by simp [h1, hsafe, hds, hterm, hphase, hl]⟩
    · obtain ⟨c, hc⟩ := hown
      exact ⟨c, by simp [h1, hsafe, hds, hterm, hphase, hl, hc]⟩

/-- The model answers every row of `TestDrain` as the row expects, with the
client of the test, for which every controller looked up exists. -/
theorem drainTests_hold :
    ∀ row ∈ drainTests 3600, rowHolds testFlags 3600 fullCluster row = true := by
  decide

/-- C17, as stated, fails. Four pods of kube-system, each controller-managed,
not terminal and not annotated: the daemonset pod and the pod terminating
beyond the grace period give no error when the only budget is the one of
"default", and are not returned with the matching kube-system budget; the
pod with an EmptyDir volume and the pod whose controller is not found make
`Evaluate` return an error with the matching kube-system budget. -/
theorem kube_system_pod_not_by_budget_alone :
    (kubeSystemDsPod.Namespace = "kube-system" ∧ kubeSystemDsPod.SafeToEvict = .absent ∧
      terminal kubeSystemDsPod = false ∧
      (Resolve fullCluster kubeSystemDsPod).controllerExists = true ∧
      Evaluate testFlags 3600 fullCluster [defaultNamespacePDB] [kubeSystemDsPod] = ([], none) ∧
      selects kubeSystemPDB kubeSystemDsPod = true ∧
      Evaluate testFlags 3600 fullCluster [kubeSystemPDB] [kubeSystemDsPod] = ([], none)) ∧
    (terminal (kubeSystemRcPodDeleted 0) = false ∧
      Evaluate testFlags 3600 fullCluster [defaultNamespacePDB] [kubeSystemRcPodDeleted 0] =
        ([], none) ∧
      selects kubeSystemPDB (kubeSystemRcPodDeleted 0) = true ∧
      Evaluate testFlags 3600 fullCluster [kubeSystemPDB] [kubeSystemRcPodDeleted 0] =
        ([], none)) ∧
    (selects kubeSystemPDB kubeSystemRcEmptydirPod = true ∧
      (Resolve fullCluster kubeSystemRcEmptydirPod).controllerExists = true ∧
      Evaluate testFlags 3600 fullCluster [kubeSystemPDB] [kubeSystemRcEmptydirPod] =
        ([], some (.policyBlocked "kube-system" "bar" .localStorage))) ∧
    (kubeSystemRcPod.OwnerReferences ≠ [] ∧ selects kubeSystemPDB kubeSystemRcPod = true ∧
      Evaluate testFlags 3600 testCluster [kubeSystemPDB] [kubeSystemRcPod] =
        ([], some (.policyBlocked "kube-system" "bar" .controllerNotFound))) := by
  decide

/-- C17, amended. Budgets of other namespaces never protect a pod. Let a pod
of the namespace kube-system have no safe-to-evict annotation, no terminal
phase, no daemonset as controller, and not be terminating beyond the grace
period. If the budget list holds only budgets of other namespaces, `Evaluate`
on any pod list that contains it returns an error and no pods; with a budget
of kube-system whose selector matches the pod's labels, the pod's controller
existing and the pod without local storage, `Evaluate` on the single-pod
list returns the pod and no error. -/
theorem kube_system_pod_needs_budget (flags : PolicyFlags) (now : Int) (lookup : Lookup)
    (budgets : List PodDisruptionBudget) (p : Pod)
    (hns : p.Namespace = "kube-system") (hann : p.SafeToEvict = .absent)
    (hphase : terminal p = false) (hds : controllerKind p ≠ .ofKind .daemonSet)
    (hterm : terminating flags now p = false) :
    ((∀ b ∈ budgets, b.Namespace ≠ p.Namespace) →
        ∀ pods, p ∈ pods → ∃ e, Evaluate flags now lookup budgets pods = ([], some e)) ∧
      ((Resolve lookup p).controllerExists = true → HasLocalStorage p = false →
        (∃ b ∈ budgets, b.Namespace = p.Namespace ∧ selects b p = true) →
        Evaluate flags now lookup budgets [p] = ([p], none)) := by
  refine ⟨?_, ?_⟩
  · intro hother pods hp
    have hb := budgetRule_of_system_unselected p budgets hns
      (fun b hb hbn => absurd hbn (hother b hb))
    have hsafe : p.SafeToEvict ≠ .explicitTrue := by simp [hann]
    obtain ⟨c, hc⟩ := classify_blocking_of_budgetRule flags now lookup budgets p _ hb hsafe
      hds hterm hphase
    exact Evaluate_of_blocking flags now lookup budgets pods p c hp hc
  · intro hex hloc hmatch
    have hb := budgetRule_of_matched p budgets hmatch
    have hown : ownerRule flags lookup budgets p = .evictable := by
      unfold ownerRule
      unfold Resolve at hex ⊢
      cases hrefs : p.OwnerReferences with
      | nil => simp [hrefs] at hex
      | cons ref rest =>
        rw [hrefs] at hex
        cases hl : lookup ref.Kind p.Namespace ref.Name <;> simp [hl] at hex ⊢
        exact hb
    have hc : classify flags now lookup budgets p = .evictable := by
      simp [classify, hann, hds, hterm, hphase, hloc, hown]
    rw [Evaluate_singleton, hc]

/-- Witness of the amended C17 at `kubeSystemRcPod` of the test: the rows
"default namespace PDB with matching labels kube-system pod" and "kube-system
PDB with matching kube-system pod". -/
theorem kube_system_pod_needs_budget_witness :
    ((∀ b ∈ [defaultNamespacePDB], b.Namespace ≠ kubeSystemRcPod.Namespace) ∧
      ∃ e, Evaluate testFlags 0 fullCluster [defaultNamespacePDB] [kubeSystemRcPod] =
        ([], some e)) ∧
    ((∃ b ∈ [kubeSystemPDB], b.Namespace = kubeSystemRcPod.Namespace ∧
        selects b kubeSystemRcPod = true) ∧
      Evaluate testFlags 0 fullCluster [kubeSystemPDB] [kubeSystemRcPod] =
        ([kubeSystemRcPod], none)) :=
  ⟨⟨by decide,
      (kube_system_pod_needs_budget testFlags 0 fullCluster [defaultNamespacePDB]
        kubeSystemRcPod (by decide) (by decide) (by decide) (by decide) (by decide)).1
        (by decide) [kubeSystemRcPod] (by decide)⟩,
    ⟨by decide,
      (kube_system_pod_needs_budget testFlags 0 fullCluster [kubeSystemPDB]
        kubeSystemRcPod (by decide) (by decide) (by decide) (by decide) (by decide)).2
        (by decide) (by decide) (by decide)⟩⟩

end Drain

namespace Validation

/-! ## Block devices -/

/-- C23. Only one (root) block device may be specified, and it must be valid.
`validateBlockDevices` returns no error if and only if the list is empty or
holds exactly one device whose `Ebs.VolumeSize` is not 0 and whose
`Ebs.VolumeType` is not empty; a list of more than one device yields exactly
one error, the same whatever the fields of the devices. -/
theorem validateBlockDevices_spec (blockDevices : List AWSBlockDeviceMappingSpec)
    (fldPath : Path) :
    (validateBlockDevices blockDevices fldPath = [] ↔
        blockDevices = [] ∨
          ∃ device, blockDevices = [device] ∧ device.Ebs.VolumeSize ≠ 0 ∧
            device.Ebs.VolumeType ≠ "") ∧
      (1 < blockDevices.length →
        validateBlockDevices blockDevices fldPath =
          [Required (Child fldPath "") "Can only specify one (root) block device"]) := by
  match blockDevices with
  | [] => simp [validateBlockDevices]
  | [device] =>
    by_cases hs : device.Ebs.VolumeSize = 0 <;> by_cases ht : device.Ebs.VolumeType = "" <;>
      simp [validateBlockDevices, hs, ht]
  | d₁ :: d₂ :: rest => simp [validateBlockDevices]

/-- Witness of C23: two devices, the first of them valid, give the one error
"Can only specify one (root) block device". -/
theorem validateBlockDevices_spec_witness :
    1 < ([{ Ebs := { VolumeSize := 50, VolumeType := "gp2" } },
          { Ebs := { VolumeSize := 0, VolumeType := "" } }] :
        List AWSBlockDeviceMappingSpec).length ∧
      validateBlockDevices
          [{ Ebs := { VolumeSize := 50, VolumeType := "gp2" } },
           { Ebs := { VolumeSize := 0, VolumeType := "" } }] ["spec.blockDevices"] =
        [Required (Child ["spec.blockDevices"] "") "Can only specify one (root) block device"] :=
  ⟨by decide,
    (validateBlockDevices_spec
      [{ Ebs := { VolumeSize := 50, VolumeType := "gp2" } },
       { Ebs := { VolumeSize := 0, VolumeType := "" } }] ["spec.blockDevices"]).2 (by decide)⟩

/-! ## Network interfaces -/

theorem validateSecurityGroupIDs_length (fldPath : Path) (i : Nat) (ids : List String)
    (j : Nat) :
    (validateSecurityGroupIDs fldPath i ids j).length = ids.count "" := by
  induction ids generalizing j with
  | nil => rfl
  | cons id rest ih =>
    by_cases h : id = ""
    · simp [validateSecurityGroupIDs, h, ih, Nat.add_comm]
    · have h' : ¬ "" = id := fun e => h e.symm
      simp [validateSecurityGroupIDs, h, ih, List.count_cons, h']

theorem validateInterfacesFrom_length (fldPath : Path) (nis : List AWSNetworkInterfaceSpec)
    (i : Nat) :
    (validateInterfacesFrom fldPath nis i).length =
      nis.countP (fun ni => decide (ni.SubnetID = "")) +
        nis.countP (fun ni => decide (ni.SecurityGroupIDs = [])) +
        (nis.map fun ni => ni.SecurityGroupIDs.count "").sum := by
  induction nis generalizing i with
  | nil => rfl
  | cons ni rest ih =>
    have hsg : (if ni.SecurityGroupIDs.length = 0 then
          [Required (Child fldPath "securityGroupIDs") "Mention at least one securityGroupID"]
        else validateSecurityGroupIDs fldPath i ni.SecurityGroupIDs 0).length =
        (if ni.SecurityGroupIDs = [] then 1 else 0) + ni.SecurityGroupIDs.count "" := by
      cases hids : ni.SecurityGroupIDs with
      | nil => simp
      | cons id ids => simp [validateSecurityGroupIDs_length]
    have hsub : (if ni.SubnetID = "" then
          [Required (Child fldPath "subnetID") "SubnetID is required"] else []).length =
        (if ni.SubnetID = "" then 1 else 0) := by
      split <;> rfl
    simp only [validateInterfacesFrom, List.length_append, hsg, hsub, ih, List.countP_cons,
      List.map_cons, List.sum_cons, decide_eq_true_eq]
    omega

/-- C22. `validateNetworkInterfaces` returns no error if and only if the list
is non-empty and every interface has a non-empty `SubnetID` and a non-empty
`SecurityGroupIDs` list none of whose entries is the empty string. An empty
list yields exactly one error; for a non-empty list the number of errors is
the number of empty SubnetIDs plus the number of interfaces without security
group plus the number of blank security-group ids. -/
theorem validateNetworkInterfaces_spec (nis : List AWSNetworkInterfaceSpec) (fldPath : Path) :
    (validateNetworkInterfaces nis fldPath = [] ↔
        nis ≠ [] ∧ ∀ ni ∈ nis, ni.SubnetID ≠ "" ∧ ni.SecurityGroupIDs ≠ [] ∧
          "" ∉ ni.SecurityGroupIDs) ∧
      (validateNetworkInterfaces [] fldPath).length = 1 ∧
      (nis ≠ [] →
        (validateNetworkInterfaces nis fldPath).length =
          nis.countP (fun ni => decide (ni.SubnetID = "")) +
            nis.countP (fun ni => decide (ni.SecurityGroupIDs = [])) +
            (nis.map fun ni => ni.SecurityGroupIDs.count "").sum) := by
  have hlen : nis ≠ [] →
      (validateNetworkInterfaces nis fldPath).length =
        nis.countP (fun ni => decide (ni.SubnetID = "")) +
          nis.countP (fun ni => decide (ni.SecurityGroupIDs = [])) +
          (nis.map fun ni => ni.SecurityGroupIDs.count "").sum := by
    intro hne
    have h0 : ¬ nis.length = 0 := fun h => hne (List.length_eq_zero.1 h)
    simp only [validateNetworkInterfaces, h0, if_false, validateInterfacesFrom_length]
  refine ⟨?_, by simp [validateNetworkInterfaces], hlen⟩
  by_cases hne : nis = []
  · subst hne
    simp [validateNetworkInterfaces]
  · rw [← List.length_eq_zero, hlen hne]
    simp only [ne_eq, hne, not_false_eq_true, true_and, Nat.add_eq_zero, List.countP_eq_zero,
      decide_eq_true_eq, List.sum_eq_zero_iff, List.mem_map, forall_exists_index, and_imp,
      forall_apply_eq_imp_iff₂, List.count_eq_zero]
    constructor
    · rintro ⟨⟨h1, h2⟩, h3⟩ ni hni
      exact ⟨h1 ni hni, h2 ni hni, h3 ni hni⟩
    · intro h
      exact ⟨⟨fun ni hni => (h ni hni).1, fun ni hni => (h ni hni).2.1⟩,
        fun ni hni => (h ni hni).2.2⟩

/-- Witness of C22: two interfaces with one empty SubnetID, one interface
without security group and two blank security-group ids give four errors. -/
theorem validateNetworkInterfaces_spec_witness :
    ([{ SubnetID := "", SecurityGroupIDs := ["", "sg-1", ""] },
        { SubnetID := "subnet-1", SecurityGroupIDs := [] }] : List AWSNetworkInterfaceSpec) ≠ [] ∧
      (validateNetworkInterfaces
          [{ SubnetID := "", SecurityGroupIDs := ["", "sg-1", ""] },
           { SubnetID := "subnet-1", SecurityGroupIDs := [] }]
          ["spec.networkInterfaces"]).length = 1 + 1 + 2 :=
  ⟨by decide,
    ((validateNetworkInterfaces_spec
      [{ SubnetID := "", SecurityGroupIDs := ["", "sg-1", ""] },
       { SubnetID := "subnet-1", SecurityGroupIDs := [] }]
      ["spec.networkInterfaces"]).2.2 (by decide)).trans (by decide)⟩

/-! ## Tags -/

theorem scanTagKeys_fst (keys : List String) (acc : String × String) :
    (scanTagKeys keys acc).1 = "" ↔
      acc.1 = "" ∧ ∀ key ∈ keys, stringsContains key "kubernetes.io/cluster/" = false := by
  have hblank : stringsContains "" "kubernetes.io/cluster/" = false := by decide
  induction keys generalizing acc with
  | nil => simp [scanTagKeys]
  | cons key rest ih =>
    obtain ⟨clusterName, nodeRole⟩ := acc
    by_cases hc : stringsContains key "kubernetes.io/cluster/" = true
    · have hkey : key ≠ "" := by
        intro hk
        rw [hk, hblank] at hc
        cases hc
      simp [scanTagKeys, hc, ih, hkey]
    · by_cases hr : stringsContains key "kubernetes.io/role/" = true
      · simp [scanTagKeys, hc, hr, ih]
      · simp [scanTagKeys, hc, hr, ih]

theorem scanTagKeys_snd (keys : List String) (acc : String × String) :
    (scanTagKeys keys acc).2 = "" ↔
      acc.2 = "" ∧ ∀ key ∈ keys,
        ¬ (stringsContains key "kubernetes.io/role/" = true ∧
          stringsContains key "kubernetes.io/cluster/" = false) := by
  have hblank : stringsContains "" "kubernetes.io/role/" = false := by decide
  induction keys generalizing acc with
  | nil => simp [scanTagKeys]
  | cons key rest ih =>
    obtain ⟨clusterName, nodeRole⟩ := acc
    by_cases hc : stringsContains key "kubernetes.io/cluster/" = true
    · simp [scanTagKeys, hc, ih]
    · by_cases hr : stringsContains key "kubernetes.io/role/" = true
      · have hkey : key ≠ "" := by
          intro hk
          rw [hk, hblank] at hr
          cases hr
        simp [scanTagKeys, hc, hr, ih, hkey]
      · simp [scanTagKeys, hc, hr, ih]

/-- C21, as stated, fails: in the tag map with the single key
"kubernetes.io/cluster/kubernetes.io/role/" some key contains
"kubernetes.io/cluster/" and some key contains "kubernetes.io/role/", yet
the Required error for the role tag is returned. -/
theorem validateAWSClassSpecTags_shared_key :
    (∃ kv ∈ [("kubernetes.io/cluster/kubernetes.io/role/", "1")],
        stringsContains kv.1 "kubernetes.io/cluster/" = true) ∧
      (∃ kv ∈ [("kubernetes.io/cluster/kubernetes.io/role/", "1")],
        stringsContains kv.1 "kubernetes.io/role/" = true) ∧
      validateAWSClassSpecTags [("kubernetes.io/cluster/kubernetes.io/role/", "1")]
          ["spec.tags"] =
        [Required ["spec.tags", "kubernetes.io/role/"]
          "Tag required of the form kubernetes.io/role/****"] := by
  decide

/-- C21, amended. Each key counts for one kind only: as a cluster key when it
contains "kubernetes.io/cluster/", else as a role key when it contains
"kubernetes.io/role/". For every tag map, in whatever order the keys are
visited, `validateAWSClassSpecTags` returns no error if and only if some key
is a cluster key and some key is a role key; it returns exactly one Required
error for each of the two kinds that is missing, the cluster error first. -/
theorem validateAWSClassSpecTags_spec (tags : List (String × String)) (fldPath : Path) :
    (validateAWSClassSpecTags tags fldPath = [] ↔
        (∃ kv ∈ tags, stringsContains kv.1 "kubernetes.io/cluster/" = true) ∧
          ∃ kv ∈ tags, stringsContains kv.1 "kubernetes.io/role/" = true ∧
            stringsContains kv.1 "kubernetes.io/cluster/" = false) ∧
      validateAWSClassSpecTags tags fldPath =
        (if tags.any (fun kv => stringsContains kv.1 "kubernetes.io/cluster/") then []
          else [Required (Child fldPath "kubernetes.io/cluster/")
            "Tag required of the form kubernetes.io/cluster/****"]) ++
        (if tags.any (fun kv => stringsContains kv.1 "kubernetes.io/role/" &&
            !stringsContains kv.1 "kubernetes.io/cluster/") then []
          else [Required (Child fldPath "kubernetes.io/role/")
            "Tag required of the form kubernetes.io/role/****"]) := by
  have h1 : (scanTagKeys (tags.map fun kv => kv.1) ("", "")).1 = "" ↔
      ¬ ∃ kv ∈ tags, stringsContains kv.1 "kubernetes.io/cluster/" = true := by
    rw [scanTagKeys_fst]
    simp
  have h2 : (scanTagKeys (tags.map fun kv => kv.1) ("", "")).2 = "" ↔
      ¬ ∃ kv ∈ tags, stringsContains kv.1 "kubernetes.io/role/" = true ∧
        stringsContains kv.1 "kubernetes.io/cluster/" = false := by
    rw [scanTagKeys_snd]
    simp
  by_cases hc : ∃ kv ∈ tags, stringsContains kv.1 "kubernetes.io/cluster/" = true
  · by_cases hr : ∃ kv ∈ tags, stringsContains kv.1 "kubernetes.io/role/" = true ∧
        stringsContains kv.1 "kubernetes.io/cluster/" = false
    · have e1 : ¬ (scanTagKeys (tags.map fun kv => kv.1) ("", "")).1 = "" :=
        fun h => h1.1 h hc
      have e2 : ¬ (scanTagKeys (tags.map fun kv => kv.1) ("", "")).2 = "" :=
        fun h => h2.1 h hr
      have a1 : tags.any (fun kv => stringsContains kv.1 "kubernetes.io/cluster/") = true := by
        simpa [List.any_eq_true] using hc
      have a2 : tags.any (fun kv => stringsContains kv.1 "kubernetes.io/role/" &&
          !stringsContains kv.1 "kubernetes.io/cluster/") = true := by
        simpa [List.any_eq_true] using hr
      simp only [validateAWSClassSpecTags, e1, e2, a1, a2, if_true, if_false]
      exact ⟨⟨fun _ => ⟨hc, hr⟩, fun _ => trivial⟩, rfl⟩
    · have e1 : ¬ (scanTagKeys (tags.map fun kv => kv.1) ("", "")).1 = "" :=
        fun h => h1.1 h hc
      have e2 : (scanTagKeys (tags.map fun kv => kv.1) ("", "")).2 = "" := h2.2 hr
      have a1 : tags.any (fun kv => stringsContains kv.1 "kubernetes.io/cluster/") = true := by
        simpa [List.any_eq_true] using hc
      have a2 : tags.any (fun kv => stringsContains kv.1 "kubernetes.io/role/" &&
          !stringsContains kv.1 "kubernetes.io/cluster/") = false := by
        rw [Bool.eq_false_iff]
        intro h
        exact hr (by simpa [List.any_eq_true] using h)
      simp only [validateAWSClassSpecTags, e1, e2, a1, a2, if_true, if_false]
      refine ⟨⟨fun h => ?_, fun h => absurd h.2 hr⟩, rfl⟩
      simp at h
  · have e1 : (scanTagKeys (tags.map fun kv => kv.1) ("", "")).1 = "" := h1.2 hc
    have a1 : tags.any (fun kv => stringsContains kv.1 "kubernetes.io/cluster/") = false := by
      rw [Bool.eq_false_iff]
      intro h
      exact hc (by simpa [List.any_eq_true] using h)
    by_cases hr : ∃ kv ∈ tags, stringsContains kv.1 "kubernetes.io/role/" = true ∧
        stringsContains kv.1 "kubernetes.io/cluster/" = false
    · have e2 : ¬ (scanTagKeys (tags.map fun kv => kv.1) ("", "")).2 = "" :=
        fun h => h2.1 h hr
      have a2 : tags.any (fun kv => stringsContains kv.1 "kubernetes.io/role/" &&
          !stringsContains kv.1 "kubernetes.io/cluster/") = true := by
        simpa [List.any_eq_true] using hr
      simp only [validateAWSClassSpecTags, e1, e2, a1, a2, if_true, if_false]
      refine ⟨⟨fun h => ?_, fun h => absurd h.1 hc⟩, rfl⟩
      simp at h
    · have e2 : (scanTagKeys (tags.map fun kv => kv.1) ("", "")).2 = "" := h2.2 hr
      have a2 : tags.any (fun kv => stringsContains kv.1 "kubernetes.io/role/" &&
          !stringsContains kv.1 "kubernetes.io/cluster/") = false := by
        rw [Bool.eq_false_iff]
        intro h
        exact hr (by simpa [List.any_eq_true] using h)
      simp only [validateAWSClassSpecTags, e1, e2, a1, a2, if_true, if_false]
      refine ⟨⟨fun h => ?_, fun h => absurd h.1 hc⟩, rfl⟩
      simp at h

/-! ## Object names -/

theorem isNameChar_iff (c : Char) :
    isNameChar c = true ↔ c = '-' ∨ ('a' ≤ c ∧ c ≤ 'z') ∨ ('0' ≤ c ∧ c ≤ '9') := by
  simp [isNameChar, or_assoc]

theorem utf8Size_of_le_z (c : Char) (h : c ≤ 'z') : c.utf8Size = 1 := by
  have h1 : c.val.toNat ≤ 122 := h
  have h2 : c.val ≤ 0x7F := by
    show c.val.toNat ≤ 127
    omega
  simp only [Char.utf8Size]
  exact if_pos h2

theorem utf8Size_of_isNameChar (c : Char) (h : isNameChar c = true) : c.utf8Size = 1 := by
  rcases (isNameChar_iff c).1 h with h | h | h
  · subst h
    decide
  · exact utf8Size_of_le_z c h.2
  · exact utf8Size_of_le_z c (Nat.le_trans (show c.val.toNat ≤ 57 from h.2) (by decide))

theorem utf8ByteSize_of_name (l : List Char) (h : ∀ c ∈ l, isNameChar c = true) :
    String.utf8ByteSize ⟨l⟩ = l.length := by
  show String.utf8ByteSize.go l = l.length
  induction l with
  | nil => rfl
  | cons c cs ih =>
    simp only [String.utf8ByteSize.go, List.length_cons]
    rw [ih (fun d hd => h d (List.mem_cons_of_mem _ hd)),
      utf8Size_of_isNameChar c (h c (List.mem_cons_self _ _))]

theorem nameRegexpMatchString_iff (value : String) :
    nameRegexpMatchString value = true ↔
      value ≠ "" ∧ ∀ c ∈ value.data, isNameChar c = true := by
  have hne : value.data = [] ↔ value = "" := by
    constructor
    · intro h
      cases value
      simp_all
    · intro h
      subst h
      rfl
  simp [nameRegexpMatchString, List.isEmpty_iff, hne]

theorem validateName_cases (value : String) (pfx : Bool) :
    (validateName value pfx = [] ↔
        ¬ 63 < value.utf8ByteSize ∧ nameRegexpMatchString value = true) ∧
      (NameError.maxLen 63 ∈ validateName value pfx ↔ 63 < value.utf8ByteSize) ∧
      (NameError.regex nameFmt "name-40d-0983-1b89" ∈ validateName value pfx ↔
        nameRegexpMatchString value = false) := by
  by_cases hlen : 63 < value.utf8ByteSize <;>
    cases hm : nameRegexpMatchString value <;>
    simp [validateName, nameMaxLength, hlen, hm]

/-- C24. For every string and either value of the flag, `validateName` returns
the empty list if and only if the value has between 1 and 63 characters,
each a lowercase letter a-z, a digit 0-9 or '-'. It returns the max-length
error exactly when `len(value)`, the length in bytes, exceeds 63, and the
format error exactly when the value is empty or holds another character;
the flag is not read. -/
theorem validateName_spec (value : String) (pfx : Bool) :
    (validateName value pfx = [] ↔
        1 ≤ value.length ∧ value.length ≤ 63 ∧
          ∀ c ∈ value.data, c = '-' ∨ ('a' ≤ c ∧ c ≤ 'z') ∨ ('0' ≤ c ∧ c ≤ '9')) ∧
      (NameError.maxLen 63 ∈ validateName value pfx ↔ 63 < value.utf8ByteSize) ∧
      (NameError.regex nameFmt "name-40d-0983-1b89" ∈ validateName value pfx ↔
        value = "" ∨
          ∃ c ∈ value.data, ¬ (c = '-' ∨ ('a' ≤ c ∧ c ≤ 'z') ∨ ('0' ≤ c ∧ c ≤ '9'))) ∧
      validateName value pfx = validateName value (!pfx) := by
  have hmatch := nameRegexpMatchString_iff value
  simp only [isNameChar_iff] at hmatch
  obtain ⟨hnil, hmax, hfmt⟩ := validateName_cases value pfx
  have hdata : value.data = [] ↔ value = "" := by
    constructor
    · intro h
      cases value
      simp_all
    · intro h
      subst h
      rfl
  have hbytes : nameRegexpMatchString value = true → value.utf8ByteSize = value.length := by
    intro hm
    have hm' := hmatch.1 hm
    cases value with
    | mk l => exact utf8ByteSize_of_name l (fun c hc => (isNameChar_iff c).2 (hm'.2 c hc))
  refine ⟨?_, hmax, ?_, rfl⟩
  · rw [hnil]
    constructor
    · rintro ⟨hlen, hm⟩
      have hm' := hmatch.1 hm
      have hpos : 1 ≤ value.length :=
        List.length_pos.2 (fun h => hm'.1 (hdata.1 h))
      have hb := hbytes hm
      exact ⟨hpos, by omega, hm'.2⟩
    · rintro ⟨hpos, h63, hall⟩
      have hne : value ≠ "" := by
        intro h
        subst h
        exact absurd hpos (by decide)
      have hm : nameRegexpMatchString value = true := hmatch.2 ⟨hne, hall⟩
      have hb := hbytes hm
      exact ⟨by omega, hm⟩
  · rw [hfmt]
    constructor
    · intro hm0
      by_contra hcon
      push_neg at hcon
      have hm : nameRegexpMatchString value = true :=
        hmatch.2 ⟨hcon.1, fun c hc => hcon.2 c hc⟩
      rw [hm] at hm0
      cases hm0
    · intro hbad
      cases hm : nameRegexpMatchString value with
      | false => rfl
      | true =>
        have hm' := hmatch.1 hm
        rcases hbad with h | ⟨c, hc, hcls⟩
        · exact absurd h hm'.1
        · exact absurd (hm'.2 c hc) hcls

end Validation

namespace Mcm

/-! ## Size of the group after a deletion -/

/-- C25, as stated, fails: at size 2 with minimum size 1, `DeleteNodes` hands
the machines of both sample nodes to `DeleteMachines` and returns without an
error of its own, and `2 - 2 < MinSize()`. -/
theorem DeleteNodes_below_min :
    (sampleManager 2 []).GetMachineDeploymentSize sampleDeployment = .ok 2 ∧
      DeleteNodes (sampleManager 2 []) sampleDeployment sampleNodes =
        .called (.DeleteMachines
          [some { Name := "m2", Namespace := "shoot" },
           some { Name := "m1", Namespace := "shoot" }]) ∧
      ¬ ((2 : Int) - (sampleNodes.length : Int) ≥ sampleDeployment.MinSize) := by
  refine ⟨rfl, by decide, by decide⟩

/-- C25, amended. For a machine deployment with current size `s` and a list of
`k` nodes, if `DeleteNodes` returns without an error of its own, it has
handed `k` machine references to `DeleteMachines` and `s > MinSize()`; hence
`s - k >= MinSize()` whenever `k <= 1`, and more generally whenever
`k <= s - MinSize()`. -/
theorem DeleteNodes_min_size (m : McmManager) (md : MachineDeployment) (nodes : List Node)
    (size : Int) (c : Call) (hsize : m.GetMachineDeploymentSize md = .ok size)
    (hcall : DeleteNodes m md nodes = .called c) :
    (∃ machines, c = .DeleteMachines machines ∧ machines.length = nodes.length) ∧
      size > md.MinSize ∧
      (nodes.length ≤ 1 → size - (nodes.length : Int) ≥ md.MinSize) ∧
      ((nodes.length : Int) ≤ size - md.MinSize → size - (nodes.length : Int) ≥ md.MinSize) := by
  by_cases hmin : size ≤ md.MinSize
  · simp [DeleteNodes, hsize, hmin] at hcall
  · cases hloop : deleteNodesLoop m md nodes 0 [] with
    | error e => simp [DeleteNodes, hsize, hmin, hloop] at hcall
    | ok machines =>
      have hlen := deleteNodesLoop_length m md nodes 0 [] machines hloop
      simp only [DeleteNodes, hsize, hmin, hloop, if_false, Outcome.called.injEq] at hcall
      refine ⟨⟨machines, hcall.symm, by simpa using hlen⟩, by omega, ?_, ?_⟩
      · intro hk
        omega
      · intro hk
        omega

/-- Witness of the amended C25: one node deleted at size 2 with minimum 1. -/
theorem DeleteNodes_min_size_witness :
    (sampleManager 2 []).GetMachineDeploymentSize sampleDeployment = .ok 2 ∧
      DeleteNodes (sampleManager 2 []) sampleDeployment
          [{ Name := "n1", ProviderID := "aws:///eu-west-1/i-1" }] =
        .called (.DeleteMachines [some { Name := "m1", Namespace := "shoot" }]) ∧
      (2 : Int) - (([{ Name := "n1", ProviderID := "aws:///eu-west-1/i-1" }] : List Node).length
        : Int) ≥ sampleDeployment.MinSize :=
  ⟨rfl, by decide,
    (DeleteNodes_min_size (sampleManager 2 []) sampleDeployment
      [{ Name := "n1", ProviderID := "aws:///eu-west-1/i-1" }] 2
      (.DeleteMachines [some { Name := "m1", Namespace := "shoot" }]) rfl (by decide)).2.2.1
      (by decide)⟩

end Mcm
